import Mathlib

/-!
# Charon authentication server: handlers of `auth.go` and the SRP-6a engine

The handlers `router`, `requestHandler`, `handleNegotiate`, `handleEphemeral`
and `handleProof` are embedded from `auth.go`.  The files `auth.go` calls into
(the wire codec, the `srp` package, the user store) are not part of the
sources at hand: the `srp` package and the store enter the handlers as
parameters (`Extern`, `Database`), the wire codec and a concrete SRP engine
are modelled from the specification and marked as such.

Bytes are natural numbers below 256; a Go `string` is its byte sequence.
-/

namespace Charon

abbrev Bytes := List Nat

/-- Error values.  The first three are the `errors.New` values of `auth.go`
("Message is too small", "Invalid packet type", "session does not exist");
the others are the error kinds of the collaborators (specification, section 7). -/
inductive Err
  | messageTooSmall
  | invalidPacketType
  | sessionDoesNotExist
  | malformed
  | unknownPacket
  | userNotFound
  | backendError
  | badClientPublic
  | badScramble
  | badServerPublic
  | internalError
  deriving DecidableEq, Repr

deriving instance DecidableEq for Except

/-- Go `net.UDPAddr`. -/
structure UDPAddr where
  IP : Bytes
  Port : Nat
  Zone : Bytes
  deriving DecidableEq, Repr

/-- `type request struct` of `auth.go`. -/
structure request where
  address : UDPAddr
  message : Bytes
  deriving DecidableEq, Repr

/-- `type response struct` of `auth.go`. -/
structure response where
  address : UDPAddr
  message : Bytes
  deriving DecidableEq, Repr

/-! ## Wire codec (specification, section 4.F) -/

/-- Modelled from the spec: packet tag constant `CharonServerNegotiate` (its
declaration is missing from the sources), value from the table of section 4.F. -/
def CharonServerNegotiate : Nat := 0xD003CA01

/-- Modelled from the spec: packet tag constant `CharonServerEphemeral` (its
declaration is missing from the sources), value from the table of section 4.F. -/
def CharonServerEphemeral : Nat := 0xD003CA02

/-- Modelled from the spec: packet tag constant `CharonServerProof` (its
declaration is missing from the sources), value from the table of section 4.F. -/
def CharonServerProof : Nat := 0xD003CA03

/-- Modelled from the spec: packet tag constant `CharonAuthNegotiate` (its
declaration is missing from the sources), value from the table of section 4.F. -/
def CharonAuthNegotiate : Nat := 0xE003CA01

/-- Modelled from the spec: packet tag constant `CharonAuthEphemeral` (its
declaration is missing from the sources), value from the table of section 4.F. -/
def CharonAuthEphemeral : Nat := 0xE003CA02

/-- Modelled from the spec: packet tag constant `CharonAuthProof` (its
declaration is missing from the sources), value from the table of section 4.F. -/
def CharonAuthProof : Nat := 0xE003CA03

/-- Modelled from the spec: packet tag constant `CharonSessionError` (its
declaration is missing from the sources), value from the table of section 4.F. -/
def CharonSessionError : Nat := 0xEEEECA01

/-- Go `binary.LittleEndian.Uint32` on a slice of at least four bytes. -/
def LittleEndianUint32 (b : Bytes) : Nat :=
  b.getD 0 0 + b.getD 1 0 * 2 ^ 8 + b.getD 2 0 * 2 ^ 16 + b.getD 3 0 * 2 ^ 24

/-- Little-endian encoding of a `uint32`. -/
def putUint32 (n : Nat) : Bytes :=
  [n % 256, n / 2 ^ 8 % 256, n / 2 ^ 16 % 256, n / 2 ^ 24 % 256]

/-- Little-endian encoding of a `uint16`. -/
def putUint16 (n : Nat) : Bytes :=
  [n % 256, n / 2 ^ 8 % 256]

/-- Reads a little-endian `uint32` off the front of a buffer. -/
def getUint32 : Bytes → Option (Nat × Bytes)
  | b0 :: b1 :: b2 :: b3 :: rest => some (LittleEndianUint32 [b0, b1, b2, b3], rest)
  | _ => none

/-- Reads a byte field prefixed by its 2-byte little-endian length. -/
def getLenPrefixed : Bytes → Option (Bytes × Bytes)
  | l0 :: l1 :: rest =>
    if l0 + l1 * 2 ^ 8 ≤ rest.length then
      some (rest.take (l0 + l1 * 2 ^ 8), rest.drop (l0 + l1 * 2 ^ 8))
    else none
  | _ => none

/-- Writes a byte field prefixed by its 2-byte little-endian length. -/
def putLenPrefixed (b : Bytes) : Option Bytes :=
  if b.length < 2 ^ 16 then some (putUint16 b.length ++ b) else none

/-- Reads a string terminated by one `0x00` byte, at most 64 raw bytes with
the terminator. -/
def getCString (b : Bytes) : Option (Bytes × Bytes) :=
  let s := b.takeWhile (fun c => c != 0)
  if s.length < b.length ∧ s.length + 1 ≤ 64 then some (s, b.drop (s.length + 1)) else none

/-- Writes a string terminated by one `0x00` byte, at most 64 raw bytes with
the terminator. -/
def putCString (s : Bytes) : Option Bytes :=
  if s.all (fun c => c != 0) ∧ s.length + 1 ≤ 64 then some (s ++ [0]) else none

/-- Packet `ServerNegotiate` (fields as used by `handleNegotiate`). -/
structure ServerNegotiate where
  clientSession : Nat
  username : Bytes
  deriving DecidableEq, Repr

/-- Packet `ServerEphemeral` (fields as used by `handleEphemeral`). -/
structure ServerEphemeral where
  session : Nat
  ephemeral : Bytes
  deriving DecidableEq, Repr

/-- Packet `ServerProof` (fields as used by `handleProof`). -/
structure ServerProof where
  session : Nat
  proof : Bytes
  deriving DecidableEq, Repr

/-- Packet `AuthNegotiate` (fields as used by `handleNegotiate`). -/
structure AuthNegotiate where
  clientSession : Nat
  session : Nat
  salt : Bytes
  username : Bytes
  version : Nat
  deriving DecidableEq, Repr

/-- Packet `AuthEphemeral` (fields as used by `handleEphemeral`). -/
structure AuthEphemeral where
  session : Nat
  ephemeral : Bytes
  deriving DecidableEq, Repr

/-- Packet `AuthProof` (fields as used by `handleProof`). -/
structure AuthProof where
  session : Nat
  proof : Bytes
  deriving DecidableEq, Repr

/-- Packet `SessionError` (fields as used by `handleProof`). -/
structure SessionError where
  session : Nat
  errType : Nat
  deriving DecidableEq, Repr

/-- Modelled from the spec: `ServerNegotiate.UnmarshalBinary` (the codec file
is missing from the sources).  Section 4.F: tag `0xD003CA01`, then
`client_session: u32`, `username: cstr`; an unrecognised tag is
`UnknownPacket`, a truncated or over-long body is `Malformed`. -/
def ServerNegotiate.UnmarshalBinary (data : Bytes) : Except Err ServerNegotiate :=
  match getUint32 data with
  | none => .error .malformed
  | some (tag, r1) =>
    if tag ≠ CharonServerNegotiate then .error .unknownPacket
    else
      match getUint32 r1 with
      | none => .error .malformed
      | some (clientSession, r2) =>
        match getCString r2 with
        | some (username, []) => .ok { clientSession := clientSession, username := username }
        | _ => .error .malformed

/-- Modelled from the spec: `ServerEphemeral.UnmarshalBinary` (the codec file
is missing from the sources).  Section 4.F: tag `0xD003CA02`, then
`session: u32`, `A: lenprefixed bytes`. -/
def ServerEphemeral.UnmarshalBinary (data : Bytes) : Except Err ServerEphemeral :=
  match getUint32 data with
  | none => .error .malformed
  | some (tag, r1) =>
    if tag ≠ CharonServerEphemeral then .error .unknownPacket
    else
      match getUint32 r1 with
      | none => .error .malformed
      | some (session, r2) =>
        match getLenPrefixed r2 with
        | some (ephemeral, []) => .ok { session := session, ephemeral := ephemeral }
        | _ => .error .malformed

/-- Modelled from the spec: `ServerProof.UnmarshalBinary` (the codec file is
missing from the sources).  Section 4.F: tag `0xD003CA03`, then
`session: u32`, `M1: lenprefixed bytes`. -/
def ServerProof.UnmarshalBinary (data : Bytes) : Except Err ServerProof :=
  match getUint32 data with
  | none => .error .malformed
  | some (tag, r1) =>
    if tag ≠ CharonServerProof then .error .unknownPacket
    else
      match getUint32 r1 with
      | none => .error .malformed
      | some (session, r2) =>
        match getLenPrefixed r2 with
        | some (proof, []) => .ok { session := session, proof := proof }
        | _ => .error .malformed

/-- Modelled from the spec: `AuthNegotiate.MarshalBinary` (the codec file is
missing from the sources).  Section 4.F: tag `0xE003CA01`, then
`client_session: u32`, `session: u32`, `version: u8`, `username: cstr`,
`salt: lenprefixed`. -/
def AuthNegotiate.MarshalBinary (p : AuthNegotiate) : Except Err Bytes :=
  match putCString p.username, putLenPrefixed p.salt with
  | some username, some salt =>
    .ok (putUint32 CharonAuthNegotiate ++ putUint32 p.clientSession ++ putUint32 p.session
          ++ [p.version % 256] ++ username ++ salt)
  | _, _ => .error .malformed

/-- Modelled from the spec: `AuthEphemeral.MarshalBinary` (the codec file is
missing from the sources).  Section 4.F: tag `0xE003CA02`, then
`session: u32`, `B: lenprefixed`. -/
def AuthEphemeral.MarshalBinary (p : AuthEphemeral) : Except Err Bytes :=
  match putLenPrefixed p.ephemeral with
  | some ephemeral => .ok (putUint32 CharonAuthEphemeral ++ putUint32 p.session ++ ephemeral)
  | none => .error .malformed

/-- Modelled from the spec: `AuthProof.MarshalBinary` (the codec file is
missing from the sources).  Section 4.F: tag `0xE003CA03`, then
`session: u32`, `M2: lenprefixed`. -/
def AuthProof.MarshalBinary (p : AuthProof) : Except Err Bytes :=
  match putLenPrefixed p.proof with
  | some proof => .ok (putUint32 CharonAuthProof ++ putUint32 p.session ++ proof)
  | none => .error .malformed

/-- Modelled from the spec: `SessionError.MarshalBinary` (the codec file is
missing from the sources).  Section 4.F: tag `0xEEEECA01`, then
`session: u32`, `errType: u8`. -/
def SessionError.MarshalBinary (p : SessionError) : Except Err Bytes :=
  .ok (putUint32 CharonSessionError ++ putUint32 p.session ++ [p.errType % 256])

/-! ## Collaborators of `auth.go` -/

/-- The user record returned by the store (`user.Username`, `user.Salt`,
`user.Verifier` in `handleNegotiate`). -/
structure User where
  Username : Bytes
  Salt : Bytes
  Verifier : Bytes
  deriving DecidableEq, Repr

/-- The user store as `handleNegotiate` sees it: `database.FindUser`. -/
structure Database where
  FindUser : Bytes → Except Err User

/-- What `auth.go` imports from the `srp` package and the codec constant
`SessionErrorAuthFailed`, none of which the sources at hand declare.  `ρ` is
the type of `*srp.SRP`, `σ` the type of `*srp.ServerSession`.  `ComputeKey`
has a pointer receiver and stores into the session, so it returns the session
as it is after the call together with its result. -/
structure Extern (ρ σ : Type) where
  NewSRP : Except Err ρ
  NewServerSession : ρ → Bytes → Bytes → Bytes → Nat → σ
  ComputeKey : σ → Bytes → σ × Except Err Bytes
  GetB : σ → Bytes
  VerifyClientAuthenticator : σ → Bytes → Bool
  ComputeAuthenticator : σ → Bytes → Bytes
  SessionErrorAuthFailed : Nat

/-- The random draws of one `handleNegotiate` call: the outcome of
`rand.Read(sessionBytes)` and the draw `NewServerSession` makes for the server
secret. -/
structure Rand where
  Read : Except Err Bytes
  secret : Nat

/-- Go `binary.Read(buffer, binary.LittleEndian, &sessionID)` for a `uint32`:
fails when the buffer holds fewer than four bytes. -/
def binaryReadUint32 (b : Bytes) : Except Err Nat :=
  if b.length < 4 then .error .internalError else .ok (LittleEndianUint32 b)

/-! ## `auth.go` -/

/-- `type sessions map[uint32]*srp.ServerSession`. -/
abbrev sessions (σ : Type) := Nat → Option σ

/-- Map assignment `m[k] = v`. -/
def sessions.insert {σ : Type} (m : sessions σ) (k : Nat) (v : σ) : sessions σ :=
  fun i => if i = k then some v else m i

/-- Map deletion `delete(m, k)`. -/
def sessions.delete {σ : Type} (m : sessions σ) (k : Nat) : sessions σ :=
  fun i => if i = k then none else m i

/-- The mutable state of an `AuthApp`: the session table and the time-out
goroutines `handleNegotiate` has started that have not yet woken up, each
recorded as (session ID, seconds slept). -/
structure AuthApp (σ : Type) where
  sessions : sessions σ
  purges : List (Nat × Nat)

/-- `NewAuthApp`: the state of a new application, `authApp.sessions =
make(sessions)` and no time-out goroutine started. -/
def NewAuthApp {σ : Type} : AuthApp σ :=
  { sessions := fun _ => none
    purges := [] }

/-- `type routeFunc`: the three handlers `router` can select. -/
inductive routeFunc
  | handleNegotiate
  | handleEphemeral
  | handleProof
  deriving DecidableEq, Repr

/-- `AuthApp.router`. -/
def router (req : request) : Except Err routeFunc :=
  if req.message.length < 4 then .error .messageTooSmall
  else
    let header := LittleEndianUint32 (req.message.take 4)
    if header = CharonServerNegotiate then .ok .handleNegotiate
    else if header = CharonServerEphemeral then .ok .handleEphemeral
    else if header = CharonServerProof then .ok .handleProof
    else .error .invalidPacketType

variable {ρ σ : Type}

/-- `AuthApp.handleNegotiate`. -/
def handleNegotiate (x : Extern ρ σ) (db : Database) (rnd : Rand) (app : AuthApp σ)
    (req : request) : Except Err response × AuthApp σ :=
  match ServerNegotiate.UnmarshalBinary req.message with
  | .error e => (.error e, app)
  | .ok packet =>
    match db.FindUser packet.username with
    | .error e => (.error e, app)
    | .ok user =>
      match rnd.Read with
      | .error e => (.error e, app)
      | .ok sessionBytes =>
        match binaryReadUint32 sessionBytes with
        | .error e => (.error e, app)
        | .ok sessionID =>
          match x.NewSRP with
          | .error e => (.error e, app)
          | .ok srpo =>
            let app1 : AuthApp σ :=
              { sessions := app.sessions.insert sessionID
                  (x.NewServerSession srpo user.Username user.Salt user.Verifier rnd.secret)
                purges := app.purges ++ [(sessionID, 5)] }
            match AuthNegotiate.MarshalBinary
                { clientSession := packet.clientSession
                  session := sessionID
                  salt := user.Salt
                  username := user.Username
                  version := 2 } with
            | .error e => (.error e, app1)
            | .ok message => (.ok { address := req.address, message := message }, app1)

/-- `AuthApp.handleEphemeral`. -/
def handleEphemeral (x : Extern ρ σ) (app : AuthApp σ) (req : request) :
    Except Err response × AuthApp σ :=
  match ServerEphemeral.UnmarshalBinary req.message with
  | .error e => (.error e, app)
  | .ok packet =>
    match app.sessions packet.session with
    | none => (.error .sessionDoesNotExist, app)
    | some session =>
      match x.ComputeKey session packet.ephemeral with
      | (session1, .error e) =>
        (.error e, { app with sessions := app.sessions.insert packet.session session1 })
      | (session1, .ok _) =>
        let app1 : AuthApp σ := { app with sessions := app.sessions.insert packet.session session1 }
        let serverEphemeral := x.GetB session1
        match AuthEphemeral.MarshalBinary
            { session := packet.session, ephemeral := serverEphemeral } with
        | .error e => (.error e, app1)
        | .ok message => (.ok { address := req.address, message := message }, app1)

/-- `AuthApp.handleProof`. -/
def handleProof (x : Extern ρ σ) (app : AuthApp σ) (req : request) :
    Except Err response × AuthApp σ :=
  match ServerProof.UnmarshalBinary req.message with
  | .error e => (.error e, app)
  | .ok packet =>
    match app.sessions packet.session with
    | none => (.error .sessionDoesNotExist, app)
    | some session =>
      if x.VerifyClientAuthenticator session packet.proof = false then
        match SessionError.MarshalBinary
            { session := packet.session, errType := x.SessionErrorAuthFailed } with
        | .error e => (.error e, app)
        | .ok message => (.ok { address := req.address, message := message }, app)
      else
        let serverProof := x.ComputeAuthenticator session packet.proof
        match AuthProof.MarshalBinary { session := packet.session, proof := serverProof } with
        | .error e => (.error e, app)
        | .ok message => (.ok { address := req.address, message := message }, app)

/-- Calling the handler a `routeFunc` stands for: `route(req)`. -/
def routeFunc.call (route : routeFunc) (x : Extern ρ σ) (db : Database) (rnd : Rand)
    (app : AuthApp σ) (req : request) : Except Err response × AuthApp σ :=
  match route with
  | .handleNegotiate => Charon.handleNegotiate x db rnd app req
  | .handleEphemeral => Charon.handleEphemeral x app req
  | .handleProof => Charon.handleProof x app req

/-- `AuthApp.requestHandler`: the first component is the datagram handed to
`conn.WriteToUDP`, `none` when nothing is written. -/
def requestHandler (x : Extern ρ σ) (db : Database) (rnd : Rand) (app : AuthApp σ)
    (req : request) : Option response × AuthApp σ :=
  match router req with
  | .error _ => (none, app)
  | .ok route =>
    match route.call x db rnd app req with
    | (.error _, app1) => (none, app1)
    | (.ok res, app1) => (some res, app1)

/-- The events of a running server: a datagram is handled by one
`requestHandler` goroutine (with the store and the random draws of that run),
or one time-out goroutine started by `handleNegotiate` wakes up. -/
inductive Event
  | datagram (db : Database) (rnd : Rand) (req : request)
  | purge (sessionID : Nat)

/-- One step of the server.  A time-out goroutine can only wake up if it was
started: `purge id` is enabled when `(id, 5)` is among the armed purges, and
runs `delete(authApp.sessions, sessionID)`. -/
def step (x : Extern ρ σ) (app : AuthApp σ) : Event → Option (AuthApp σ)
  | .datagram db rnd req => some (requestHandler x db rnd app req).2
  | .purge sessionID =>
    if (sessionID, 5) ∈ app.purges then
      some { sessions := app.sessions.delete sessionID
             purges := app.purges.erase (sessionID, 5) }
    else none

/-- A run of the server: the events in order, `none` when one is not enabled. -/
def run (x : Extern ρ σ) (app : AuthApp σ) : List Event → Option (AuthApp σ)
  | [] => some app
  | ev :: evs =>
    match step x app ev with
    | none => none
    | some app1 => run x app1 evs

/-! ## SRP-6a engine (specification, section 4.D) -/

/-- Go `big.Int.SetBytes`: the number a big-endian byte string encodes. -/
def fromBytes (b : Bytes) : Nat :=
  b.foldl (fun acc c => acc * 256 + c) 0

/-- Big-endian digits of `n` in base 256, most significant first; `fuel`
bounds the number of digits. -/
def toBytesAux : Nat → Nat → Bytes
  | 0, _ => []
  | fuel + 1, n => if n = 0 then [] else toBytesAux fuel (n / 256) ++ [n % 256]

/-- Go `big.Int.Bytes`: the shortest big-endian byte string encoding `n`. -/
def toBytes (n : Nat) : Bytes :=
  toBytesAux n n

/-- Number of bytes of the shortest big-endian encoding: `byteLen`. -/
def byteLen (n : Nat) : Nat :=
  (toBytes n).length

/-- Bytewise exclusive or of two digests. -/
def xorBytes (a b : Bytes) : Bytes :=
  List.zipWith Nat.xor a b

/-- Modelled from the spec: the SRP engine configuration `srp.SRP` (the `srp`
package is missing from the sources).  Section 3: a group `(N, g)` and the
chosen hash `H`. -/
structure SRP where
  N : Nat
  g : Nat
  H : Bytes → Bytes

/-- Modelled from the spec: `PAD(x)` (the `srp` package is missing from the
sources).  Section 4.D and glossary: left-zero-padding of big-endian `x` to
`byteLen(N)`. -/
def SRP.PAD (s : SRP) (x : Nat) : Bytes :=
  List.replicate (byteLen s.N - byteLen x) 0 ++ toBytes x

/-- Modelled from the spec: the multiplier `k` (the `srp` package is missing
from the sources).  Section 4.D: `k = H(PAD(N) || PAD(g))`. -/
def SRP.k (s : SRP) : Nat :=
  fromBytes (s.H (s.PAD s.N ++ s.PAD s.g))

/-- Modelled from the spec: the private key `x` (the `srp` package is missing
from the sources).  Section 3: `x = H(salt || H(username || ":" || password))`. -/
def SRP.x (s : SRP) (salt username password : Bytes) : Nat :=
  fromBytes (s.H (salt ++ s.H (username ++ [58] ++ password)))

/-- Modelled from the spec: `SRP.ComputeVerifier` (the `srp` package is
missing from the sources).  Section 4.D: from the random salt bytes,
`x = H(salt || H(username || ":" || password))`, `v = g^x mod N`; the verifier
is the big-endian byte string encoding `v`. -/
def SRP.ComputeVerifier (s : SRP) (salt : Bytes) (username password : Bytes) : Bytes × Bytes :=
  (salt, s.PAD (s.g ^ s.x salt username password % s.N))

/-- Modelled from the spec: `srp.ServerSession` (the `srp` package is missing
from the sources).  Section 3: holds `username`, `salt`, `verifier`, the
server private exponent `b`, the server public `B` and, once the client's `A`
has arrived, `A`, the shared secret `S` and the session key `K`. -/
structure ServerSession where
  username : Bytes
  salt : Bytes
  verifier : Bytes
  b : Nat
  B : Nat
  A : Option Nat
  S : Option Nat
  K : Option Bytes
  deriving DecidableEq, Repr

/-- Modelled from the spec: `SRP.NewServerSession` (the `srp` package is
missing from the sources).  Section 4.D: with the drawn `b`,
`B = (k·v + g^b) mod N`. -/
def SRP.NewServerSession (s : SRP) (username salt verifier : Bytes) (b : Nat) : ServerSession :=
  { username := username
    salt := salt
    verifier := verifier
    b := b
    B := (s.k * fromBytes verifier + s.g ^ b) % s.N
    A := none
    S := none
    K := none }

/-- Modelled from the spec: `ServerSession.ComputeKey`, the set-client-public
step (the `srp` package is missing from the sources).  Section 4.D: fails
with `BadClientPublic` if `A mod N == 0`; `u = H(PAD(A) || PAD(B))`, fails
with `BadScramble` if `u == 0`; `S = (A · v^u)^b mod N`, `K = H(PAD(S))`. -/
def ServerSession.ComputeKey (s : SRP) (ss : ServerSession) (A : Bytes) :
    ServerSession × Except Err Bytes :=
  let a := fromBytes A
  if a % s.N = 0 then (ss, .error .badClientPublic)
  else
    let u := fromBytes (s.H (s.PAD a ++ s.PAD ss.B))
    if u = 0 then (ss, .error .badScramble)
    else
      let S := (a * fromBytes ss.verifier ^ u) ^ ss.b % s.N
      let K := s.H (s.PAD S)
      ({ ss with A := some a, S := some S, K := some K }, .ok K)

/-- Modelled from the spec: `ServerSession.GetB` (the `srp` package is
missing from the sources).  Section 4.D: integers carried on the wire are
big-endian, left-padded to `byteLen(N)`. -/
def ServerSession.GetB (s : SRP) (ss : ServerSession) : Bytes :=
  s.PAD ss.B

/-- Modelled from the spec: the client authenticator (the `srp` package is
missing from the sources).  Section 4.D:
`M1 = H(H(N) XOR H(g) || H(username) || salt || PAD(A) || PAD(B) || K)`. -/
def SRP.M1 (s : SRP) (username salt : Bytes) (A B : Nat) (K : Bytes) : Bytes :=
  s.H (xorBytes (s.H (toBytes s.N)) (s.H (toBytes s.g)) ++ s.H username ++ salt
        ++ s.PAD A ++ s.PAD B ++ K)

/-- Modelled from the spec: the server authenticator (the `srp` package is
missing from the sources).  Section 4.D: `M2 = H(PAD(A) || M1 || K)`. -/
def SRP.M2 (s : SRP) (A : Nat) (M1 K : Bytes) : Bytes :=
  s.H (s.PAD A ++ M1 ++ K)

/-- Modelled from the spec: `ServerSession.VerifyClientAuthenticator` (the
`srp` package is missing from the sources).  Section 4.D: computes the
expected `M1` and compares it with the received value; a session that holds
no `A` and `K` yet has no expected value and rejects. -/
def ServerSession.VerifyClientAuthenticator (s : SRP) (ss : ServerSession) (M1 : Bytes) : Bool :=
  match ss.A, ss.K with
  | some A, some K => decide (s.M1 ss.username ss.salt A ss.B K = M1)
  | _, _ => false

/-- Modelled from the spec: `ServerSession.ComputeAuthenticator` (the `srp`
package is missing from the sources).  Section 4.D:
`M2 = H(PAD(A) || M1 || K)`, defined once `A` and `K` are held. -/
def ServerSession.ComputeAuthenticator (s : SRP) (ss : ServerSession) (M1 : Bytes) : Bytes :=
  match ss.A, ss.K with
  | some A, some K => s.M2 A M1 K
  | _, _ => []

/-- Modelled from the spec: `srp.ClientSession` (the `srp` package is missing
from the sources).  Section 8 names it only as "a client session running the
symmetric SRP protocol"; it is the SRP-6a client of the glossary, with the
paddings and formulas of section 4.D. -/
structure ClientSession where
  username : Bytes
  password : Bytes
  a : Nat
  A : Nat
  salt : Bytes
  B : Option Nat
  K : Option Bytes
  deriving DecidableEq, Repr

/-- Modelled from the spec: `SRP.NewClientSession` (the `srp` package is
missing from the sources).  SRP-6a client: with the drawn `a`,
`A = g^a mod N`. -/
def SRP.NewClientSession (s : SRP) (username password : Bytes) (a : Nat) : ClientSession :=
  { username := username
    password := password
    a := a
    A := s.g ^ a % s.N
    salt := []
    B := none
    K := none }

/-- Modelled from the spec: `ClientSession.GetA` (the `srp` package is
missing from the sources): `PAD(A)`. -/
def ClientSession.GetA (s : SRP) (cs : ClientSession) : Bytes :=
  s.PAD cs.A

/-- Modelled from the spec: `ClientSession.ComputeKey` (the `srp` package is
missing from the sources).  SRP-6a client, mirroring section 4.D: fails if
`B mod N == 0`; `u = H(PAD(A) || PAD(B))`, fails if `u == 0`;
`x = H(salt || H(username || ":" || password))`;
`S = (B - k·g^x)^(a + u·x) mod N`; `K = H(PAD(S))`. -/
def ClientSession.ComputeKey (s : SRP) (cs : ClientSession) (salt B : Bytes) :
    ClientSession × Except Err Bytes :=
  let bb := fromBytes B
  if bb % s.N = 0 then (cs, .error .badServerPublic)
  else
    let u := fromBytes (s.H (s.PAD cs.A ++ s.PAD bb))
    if u = 0 then (cs, .error .badScramble)
    else
      let x := s.x salt cs.username cs.password
      let t := (((bb : Int) - (s.k : Int) * ((s.g ^ x % s.N : Nat) : Int)) % (s.N : Int)).toNat
      let S := t ^ (cs.a + u * x) % s.N
      let K := s.H (s.PAD S)
      ({ cs with salt := salt, B := some bb, K := some K }, .ok K)

/-- Modelled from the spec: `ClientSession.ComputeAuthenticator` (the `srp`
package is missing from the sources): the `M1` of section 4.D from the
client's values. -/
def ClientSession.ComputeAuthenticator (s : SRP) (cs : ClientSession) : Bytes :=
  match cs.B, cs.K with
  | some B, some K => s.M1 cs.username cs.salt cs.A B K
  | _, _ => []

/-- Modelled from the spec: `ClientSession.VerifyServerAuthenticator` (the
`srp` package is missing from the sources): compares the received value with
`M2 = H(PAD(A) || M1 || K)` of section 4.D. -/
def ClientSession.VerifyServerAuthenticator (s : SRP) (cs : ClientSession) (M2 : Bytes) : Bool :=
  match cs.K with
  | some K => decide (s.M2 cs.A (cs.ComputeAuthenticator s) K = M2)
  | none => false

/-- `ExampleNewSRP` of `srp/example_test.go`, for an engine configuration `s`:
the client session is created, the verifier computed, the server session
built from it, the client computes its key from the salt and `B`, the server
its key from `A`, then the two authenticators are exchanged and verified.
`salt0`, `a` and `b` are the random draws; a failing `ComputeKey` ends the
example (`log.Fatal`).  The result is the client's key, the server's key, and
the outcomes of `VerifyClientAuthenticator` and `VerifyServerAuthenticator`. -/
def ExampleNewSRP (s : SRP) (username password salt0 : Bytes) (a b : Nat) :
    Except Err (Bytes × Bytes × Bool × Bool) :=
  let cs := s.NewClientSession username password a
  let sv := s.ComputeVerifier salt0 username password
  let ss := s.NewServerSession username sv.1 sv.2 b
  match cs.ComputeKey s sv.1 (ss.GetB s) with
  | (_, .error e) => .error e
  | (cs1, .ok ckey) =>
    match ss.ComputeKey s (cs1.GetA s) with
    | (_, .error e) => .error e
    | (ss1, .ok skey) =>
      let cauth := cs1.ComputeAuthenticator s
      let sauth := ss1.ComputeAuthenticator s cauth
      .ok (ckey, skey, ss1.VerifyClientAuthenticator s cauth,
        cs1.VerifyServerAuthenticator s sauth)

/-- The engine of section 4.D as the `srp` package `auth.go` calls into.
`NewSRP` stands for `srp.NewSRP("rfc5054.2048", sha256.New, nil)`: it
succeeds with the configuration of that group and hash. -/
def specExtern (s : SRP) (SessionErrorAuthFailed : Nat) : Extern SRP ServerSession :=
  { NewSRP := .ok s
    NewServerSession := fun srpo username salt verifier b =>
      srpo.NewServerSession username salt verifier b
    ComputeKey := fun ss A => ss.ComputeKey s A
    GetB := fun ss => ss.GetB s
    VerifyClientAuthenticator := fun ss M1 => ss.VerifyClientAuthenticator s M1
    ComputeAuthenticator := fun ss M1 => ss.ComputeAuthenticator s M1
    SessionErrorAuthFailed := SessionErrorAuthFailed }

/-! ## Small concrete instances, used to evaluate the definitions -/

/-- A hash with a one-byte digest, for evaluating the definitions. -/
def toyH (b : Bytes) : Bytes :=
  [b.foldl (fun acc c => (acc * 31 + c + 7) % 251) 1]

/-- A small group: the safe prime 2039 with generator 7. -/
def toySRP : SRP :=
  { N := 2039, g := 7, H := toyH }

/-- The engine over the small group, with `SessionErrorAuthFailed = 3`. -/
def toyExtern : Extern SRP ServerSession :=
  specExtern toySRP 3

/-- The stored record of the one user of the small store: username `ab`,
salt `01 02 03 04`, verifier of the password `pw`. -/
def toyUser : User :=
  { Username := [97, 98]
    Salt := (toySRP.ComputeVerifier [1, 2, 3, 4] [97, 98] [112, 119]).1
    Verifier := (toySRP.ComputeVerifier [1, 2, 3, 4] [97, 98] [112, 119]).2 }

/-- A second stored record: username `cd`, salt `09`, verifier of the password `pw`. -/
def toyUser2 : User :=
  { Username := [99, 100]
    Salt := (toySRP.ComputeVerifier [9] [99, 100] [112, 119]).1
    Verifier := (toySRP.ComputeVerifier [9] [99, 100] [112, 119]).2 }

/-- A small store with case-insensitive lookup: `ab` and `AB` resolve to
`toyUser`, `cd` to `toyUser2`, nothing else resolves. -/
def toyDatabase : Database :=
  { FindUser := fun u =>
      if u = [97, 98] ∨ u = [65, 66] then .ok toyUser
      else if u = [99, 100] then .ok toyUser2
      else .error .userNotFound }

/-- A client address. -/
def toyAddr : UDPAddr :=
  { IP := [127, 0, 0, 1], Port := 40000, Zone := [] }

/-- The server session of `toyUser` as `NewServerSession` builds it with `b = 11`. -/
def toyFresh : ServerSession :=
  toySRP.NewServerSession toyUser.Username toyUser.Salt toyUser.Verifier 11

/-- The client session for `ab` / `pw` with `a = 13`. -/
def toyClient : ClientSession :=
  toySRP.NewClientSession [97, 98] [112, 119] 13

/-- The client session after its `ComputeKey` on the server's salt and `B`. -/
def toyClientKeyed : ClientSession :=
  (toyClient.ComputeKey toySRP toyUser.Salt (toyFresh.GetB toySRP)).1

/-- The server session after its `ComputeKey` on the client's `A`. -/
def toyKeyed : ServerSession :=
  (toyFresh.ComputeKey toySRP (toyClient.GetA toySRP)).1

/-- An application state whose table holds one session under ID 7, with its
time-out goroutine still asleep. -/
def toyApp (ss : ServerSession) : AuthApp ServerSession :=
  { sessions := sessions.insert (fun _ => none) 7 ss
    purges := [(7, 5)] }

/-- A `ServerNegotiate` datagram: client session `0xDEADBEEF` and a username. -/
def toyNegotiateReq (username : Bytes) : request :=
  { address := toyAddr
    message := putUint32 CharonServerNegotiate ++ putUint32 0xDEADBEEF ++ username ++ [0] }

/-- A `ServerEphemeral` datagram naming a session and carrying `A`. -/
def toyEphemeralReq (session : Nat) (A : Bytes) : request :=
  { address := toyAddr
    message := putUint32 CharonServerEphemeral ++ putUint32 session ++ putUint16 A.length ++ A }

/-- A `ServerProof` datagram naming a session and carrying `M1`. -/
def toyProofReq (session : Nat) (M1 : Bytes) : request :=
  { address := toyAddr
    message := putUint32 CharonServerProof ++ putUint32 session ++ putUint16 M1.length ++ M1 }

/-- Random draws whose session bytes decode to the ID 7. -/
def toyRand : Rand :=
  { Read := .ok [7, 0, 0, 0], secret := 5 }

/-- Random draws whose session bytes decode to the ID 8. -/
def toyRand8 : Rand :=
  { Read := .ok [8, 0, 0, 0], secret := 5 }

/-- The state `toyApp toyFresh` after the time-out goroutine of session 7 woke up. -/
def toyPurged : AuthApp ServerSession :=
  { sessions := (toyApp toyFresh).sessions.delete 7
    purges := (toyApp toyFresh).purges.erase (7, 5) }

/-- The state `toyPurged` after a negotiate datagram for `ab` that draws the ID 8. -/
def toyAfter : AuthApp ServerSession :=
  (requestHandler toyExtern toyDatabase toyRand8 toyPurged (toyNegotiateReq [97, 98])).2

/-- Whether an event is a negotiate datagram whose random draw is the given
session ID: only such an event can put that ID into the table. -/
def Event.draws (sessionID : Nat) : Event → Bool
  | .datagram _ rnd req =>
    decide (router req = .ok .handleNegotiate) &&
      (match rnd.Read with
       | .ok sessionBytes => decide (binaryReadUint32 sessionBytes = .ok sessionID)
       | .error _ => false)
  | .purge _ => false

/-! ## Routing -/

theorem getUint32_some {data : Bytes} {tag : Nat} {rest : Bytes}
    (h : getUint32 data = some (tag, rest)) :
    4 ≤ data.length ∧ LittleEndianUint32 (data.take 4) = tag := by
  match data, h with
  | b0 :: b1 :: b2 :: b3 :: r, h =>
    simp only [getUint32, Option.some.injEq, Prod.mk.injEq] at h
    refine ⟨by simp, ?_⟩
    rw [← h.1]
    simp [LittleEndianUint32]

theorem router_of_header {req : request} (hlen : 4 ≤ req.message.length) :
    router req =
      if LittleEndianUint32 (req.message.take 4) = CharonServerNegotiate then .ok .handleNegotiate
      else if LittleEndianUint32 (req.message.take 4) = CharonServerEphemeral then
        .ok .handleEphemeral
      else if LittleEndianUint32 (req.message.take 4) = CharonServerProof then .ok .handleProof
      else .error .invalidPacketType := by
  unfold router
  rw [if_neg (by omega)]

theorem router_of_ServerNegotiate {req : request} {packet : ServerNegotiate}
    (h : ServerNegotiate.UnmarshalBinary req.message = .ok packet) :
    router req = .ok .handleNegotiate := by
  unfold ServerNegotiate.UnmarshalBinary at h
  split at h
  · cases h
  · rename_i tag r1 hg
    obtain ⟨hlen, htag⟩ := getUint32_some hg
    split at h
    · cases h
    · rename_i ht
      rw [router_of_header hlen, htag, if_pos (not_not.mp ht)]

theorem router_of_ServerEphemeral {req : request} {packet : ServerEphemeral}
    (h : ServerEphemeral.UnmarshalBinary req.message = .ok packet) :
    router req = .ok .handleEphemeral := by
  unfold ServerEphemeral.UnmarshalBinary at h
  split at h
  · cases h
  · rename_i tag r1 hg
    obtain ⟨hlen, htag⟩ := getUint32_some hg
    split at h
    · cases h
    · rename_i ht
      rw [router_of_header hlen, htag, not_not.mp ht]
      rfl

theorem router_of_ServerProof {req : request} {packet : ServerProof}
    (h : ServerProof.UnmarshalBinary req.message = .ok packet) :
    router req = .ok .handleProof := by
  unfold ServerProof.UnmarshalBinary at h
  split at h
  · cases h
  · rename_i tag r1 hg
    obtain ⟨hlen, htag⟩ := getUint32_some hg
    split at h
    · cases h
    · rename_i ht
      rw [router_of_header hlen, htag, not_not.mp ht]
      rfl

/-- C3: `router` returns an error exactly when the message is shorter than 4
bytes or the little-endian 32-bit value of its first 4 bytes is none of the
ServerNegotiate, ServerEphemeral and ServerProof tags; otherwise it returns
`handleNegotiate`, `handleEphemeral` or `handleProof` respectively for those
tags; `requestHandler` writes a reply only when both `router` and the selected
handler return no error; the 3-byte datagram `01 02 03` and a datagram with an
unknown tag produce no reply. -/
theorem router_requestHandler_spec (x : Extern ρ σ) (db : Database) (rnd : Rand)
    (app : AuthApp σ) (req : request) :
    ((∃ e, router req = .error e) ↔
      (req.message.length < 4 ∨
        (LittleEndianUint32 (req.message.take 4) ≠ CharonServerNegotiate ∧
         LittleEndianUint32 (req.message.take 4) ≠ CharonServerEphemeral ∧
         LittleEndianUint32 (req.message.take 4) ≠ CharonServerProof))) ∧
    (4 ≤ req.message.length →
      (LittleEndianUint32 (req.message.take 4) = CharonServerNegotiate →
        router req = .ok .handleNegotiate) ∧
      (LittleEndianUint32 (req.message.take 4) = CharonServerEphemeral →
        router req = .ok .handleEphemeral) ∧
      (LittleEndianUint32 (req.message.take 4) = CharonServerProof →
        router req = .ok .handleProof)) ∧
    (routeFunc.handleNegotiate.call x db rnd app req = handleNegotiate x db rnd app req ∧
      routeFunc.handleEphemeral.call x db rnd app req = handleEphemeral x app req ∧
      routeFunc.handleProof.call x db rnd app req = handleProof x app req) ∧
    (∀ res, (requestHandler x db rnd app req).1 = some res →
      ∃ route, router req = .ok route ∧ (route.call x db rnd app req).1 = .ok res) ∧
    ((∃ e, router req = .error e) → requestHandler x db rnd app req = (none, app)) ∧
    (∀ addr, requestHandler x db rnd app { address := addr, message := [1, 2, 3] } = (none, app)) := by
  refine ⟨?_, ?_, ⟨rfl, rfl, rfl⟩, ?_, ?_, ?_⟩
  · by_cases hlen : req.message.length < 4
    · simp [router, hlen]
    · rw [router_of_header (by omega)]
      by_cases h1 : LittleEndianUint32 (req.message.take 4) = CharonServerNegotiate
      · simp [h1, hlen]
      · by_cases h2 : LittleEndianUint32 (req.message.take 4) = CharonServerEphemeral
        · rw [if_neg h1, if_pos h2]
          simp [h2, hlen]
        · by_cases h3 : LittleEndianUint32 (req.message.take 4) = CharonServerProof
          · rw [if_neg h1, if_neg h2, if_pos h3]
            simp [h3, hlen]
          · simp [h1, h2, h3, hlen]
  · intro hlen
    rw [router_of_header hlen]
    refine ⟨fun h => by simp [h], fun h => ?_, fun h => ?_⟩
    · rw [h]; rfl
    · rw [h]; rfl
  · intro res h
    unfold requestHandler at h
    cases hr : router req with
    | error e => rw [hr] at h; cases h
    | ok route =>
      rw [hr] at h
      refine ⟨route, rfl, ?_⟩
      simp only at h
      cases hc : route.call x db rnd app req with
      | mk r app1 =>
        rw [hc] at h
        cases r with
        | error e => cases h
        | ok res1 =>
          simp only [Option.some.injEq] at h
          rw [h]
  · rintro ⟨e, he⟩
    simp [requestHandler, he]
  · intro addr
    rfl

/-! ## `handleNegotiate` -/

/-- What `handleNegotiate` returns once the packet is decoded, the user is
found, the random session ID is drawn and the SRP configuration is built. -/
theorem handleNegotiate_eq (x : Extern ρ σ) (db : Database) (rnd : Rand) (app : AuthApp σ)
    (req : request) {packet : ServerNegotiate} {user : User} {sessionBytes : Bytes}
    {sessionID : Nat} {srpo : ρ}
    (hp : ServerNegotiate.UnmarshalBinary req.message = .ok packet)
    (hu : db.FindUser packet.username = .ok user)
    (hr : rnd.Read = .ok sessionBytes)
    (hid : binaryReadUint32 sessionBytes = .ok sessionID)
    (hsrp : x.NewSRP = .ok srpo) :
    handleNegotiate x db rnd app req =
      (match AuthNegotiate.MarshalBinary
          { clientSession := packet.clientSession
            session := sessionID
            salt := user.Salt
            username := user.Username
            version := 2 } with
        | .error e => .error e
        | .ok message => .ok { address := req.address, message := message },
       { sessions := app.sessions.insert sessionID
           (x.NewServerSession srpo user.Username user.Salt user.Verifier rnd.secret)
         purges := app.purges ++ [(sessionID, 5)] }) := by
  unfold handleNegotiate
  simp only [hp, hu, hr, hid, hsrp]
  split <;> rfl

/-- C10: when the store's `FindUser` does not resolve the username of a
well-formed ServerNegotiate packet (it returns an error, NotFound or backend
error alike), `handleNegotiate` returns that error, `requestHandler` emits no
reply, and the application state is unchanged: no session is created and no
purge is armed. -/
theorem handleNegotiate_unknown_user (x : Extern ρ σ) (db : Database) (rnd : Rand)
    (app : AuthApp σ) (req : request) (packet : ServerNegotiate) (e : Err)
    (hp : ServerNegotiate.UnmarshalBinary req.message = .ok packet)
    (hu : db.FindUser packet.username = .error e) :
    handleNegotiate x db rnd app req = (.error e, app) ∧
    requestHandler x db rnd app req = (none, app) := by
  have h : handleNegotiate x db rnd app req = (.error e, app) := by
    unfold handleNegotiate
    simp only [hp, hu]
  refine ⟨h, ?_⟩
  unfold requestHandler
  simp only [router_of_ServerNegotiate hp, routeFunc.call, h]

/-- C4: for a well-formed ServerNegotiate packet whose username the store
resolves to a user record, with the random draw, the SRP construction and the
marshalling succeeding, `handleNegotiate` returns a response addressed to the
request's source address whose message is the encoding of AuthNegotiate with
the request's clientSession, version 2, the stored salt, the stored username
and the drawn session ID; under that very ID the table now holds the server
session built from the stored username, salt and verifier, and one purge is
armed for it. -/
theorem handleNegotiate_reply (x : Extern ρ σ) (db : Database) (rnd : Rand) (app : AuthApp σ)
    (req : request) (packet : ServerNegotiate) (user : User) (sessionBytes : Bytes)
    (sessionID : Nat) (srpo : ρ) (message : Bytes)
    (hp : ServerNegotiate.UnmarshalBinary req.message = .ok packet)
    (hu : db.FindUser packet.username = .ok user)
    (hr : rnd.Read = .ok sessionBytes)
    (hid : binaryReadUint32 sessionBytes = .ok sessionID)
    (hsrp : x.NewSRP = .ok srpo)
    (hm : AuthNegotiate.MarshalBinary
        { clientSession := packet.clientSession
          session := sessionID
          salt := user.Salt
          username := user.Username
          version := 2 } = .ok message) :
    (handleNegotiate x db rnd app req).1 = .ok { address := req.address, message := message } ∧
    (handleNegotiate x db rnd app req).2.sessions sessionID =
      some (x.NewServerSession srpo user.Username user.Salt user.Verifier rnd.secret) ∧
    (handleNegotiate x db rnd app req).2.purges = app.purges ++ [(sessionID, 5)] ∧
    (requestHandler x db rnd app req).1 = some { address := req.address, message := message } := by
  have h := handleNegotiate_eq x db rnd app req hp hu hr hid hsrp
  rw [hm] at h
  refine ⟨by rw [h], by rw [h]; simp [sessions.insert], by rw [h], ?_⟩
  unfold requestHandler
  simp only [router_of_ServerNegotiate hp, routeFunc.call, h]

/-- C8 (amended): on a session-ID collision the new insert overwrites: when
the drawn session ID is already a key of the table, after `handleNegotiate`
the table maps that ID to the newly built server session of the stored record,
and every other ID to what it held before. -/
theorem handleNegotiate_collision_overwrites (x : Extern ρ σ) (db : Database) (rnd : Rand)
    (app : AuthApp σ) (req : request) (packet : ServerNegotiate) (user : User)
    (sessionBytes : Bytes) (sessionID : Nat) (srpo : ρ) (old : σ)
    (hp : ServerNegotiate.UnmarshalBinary req.message = .ok packet)
    (hu : db.FindUser packet.username = .ok user)
    (hr : rnd.Read = .ok sessionBytes)
    (hid : binaryReadUint32 sessionBytes = .ok sessionID)
    (hsrp : x.NewSRP = .ok srpo)
    (_hold : app.sessions sessionID = some old) :
    (handleNegotiate x db rnd app req).2.sessions sessionID =
      some (x.NewServerSession srpo user.Username user.Salt user.Verifier rnd.secret) ∧
    ∀ other, other ≠ sessionID →
      (handleNegotiate x db rnd app req).2.sessions other = app.sessions other := by
  have h := handleNegotiate_eq x db rnd app req hp hu hr hid hsrp
  rw [h]
  refine ⟨by simp [sessions.insert], fun other ho => by simp [sessions.insert, ho]⟩

/-! ## `handleProof` -/

/-- C1 (amended): for a well-formed ServerProof packet whose session ID is in
the table and whose M1 `VerifyClientAuthenticator` rejects, `handleProof`
returns without error a response addressed to the request's source address
whose message is the encoding of SessionError with the packet's session ID
and errType AuthFailed, `requestHandler` sends it, and the application state
is unchanged: the session ID is still a key of the table, mapped to the same
session. -/
theorem handleProof_rejected (x : Extern ρ σ) (db : Database) (rnd : Rand) (app : AuthApp σ)
    (req : request) (packet : ServerProof) (session : σ)
    (hp : ServerProof.UnmarshalBinary req.message = .ok packet)
    (hs : app.sessions packet.session = some session)
    (hv : x.VerifyClientAuthenticator session packet.proof = false) :
    ∃ message,
      SessionError.MarshalBinary
        { session := packet.session, errType := x.SessionErrorAuthFailed } = .ok message ∧
      handleProof x app req = (.ok { address := req.address, message := message }, app) ∧
      requestHandler x db rnd app req = (some { address := req.address, message := message }, app) ∧
      (handleProof x app req).2.sessions packet.session = some session := by
  have h : handleProof x app req =
      (.ok { address := req.address
             message := putUint32 CharonSessionError ++ putUint32 packet.session
               ++ [x.SessionErrorAuthFailed % 256] }, app) := by
    unfold handleProof
    simp only [hp, hs, hv, SessionError.MarshalBinary, if_true]
  refine ⟨_, rfl, h, ?_, by rw [h]; exact hs⟩
  unfold requestHandler
  simp only [router_of_ServerProof hp, routeFunc.call, h]

/-- C2 (amended): for a well-formed ServerProof packet whose session ID is in
the table and whose M1 `VerifyClientAuthenticator` accepts (the server proof
being shorter than 2^16 bytes, so that it can be framed), `handleProof`
returns without error a response addressed to the request's source address
whose message is the encoding of AuthProof with the packet's session ID and
proof `ComputeAuthenticator(M1)` of that session, `requestHandler` sends it,
and the application state is unchanged: the session ID is still a key of the
table, mapped to the same session. -/
theorem handleProof_accepted (x : Extern ρ σ) (db : Database) (rnd : Rand) (app : AuthApp σ)
    (req : request) (packet : ServerProof) (session : σ)
    (hp : ServerProof.UnmarshalBinary req.message = .ok packet)
    (hs : app.sessions packet.session = some session)
    (hv : x.VerifyClientAuthenticator session packet.proof = true)
    (hlen : (x.ComputeAuthenticator session packet.proof).length < 2 ^ 16) :
    ∃ message,
      AuthProof.MarshalBinary
        { session := packet.session
          proof := x.ComputeAuthenticator session packet.proof } = .ok message ∧
      handleProof x app req = (.ok { address := req.address, message := message }, app) ∧
      requestHandler x db rnd app req = (some { address := req.address, message := message }, app) ∧
      (handleProof x app req).2.sessions packet.session = some session := by
  have hm : AuthProof.MarshalBinary
      { session := packet.session, proof := x.ComputeAuthenticator session packet.proof } =
      .ok (putUint32 CharonAuthProof ++ putUint32 packet.session
        ++ (putUint16 (x.ComputeAuthenticator session packet.proof).length
          ++ x.ComputeAuthenticator session packet.proof)) := by
    simp only [AuthProof.MarshalBinary, putLenPrefixed, if_pos hlen]
  have h : handleProof x app req =
      (.ok { address := req.address
             message := putUint32 CharonAuthProof ++ putUint32 packet.session
               ++ (putUint16 (x.ComputeAuthenticator session packet.proof).length
                 ++ x.ComputeAuthenticator session packet.proof) }, app) := by
    unfold handleProof
    simp only [hp, hs, hv, hm]
    simp
  refine ⟨_, hm, h, ?_, by rw [h]; exact hs⟩
  unfold requestHandler
  simp only [router_of_ServerProof hp, routeFunc.call, h]

/-! ## `handleEphemeral` -/

/-- What `handleEphemeral` returns once the packet is decoded and the session
is found. -/
theorem handleEphemeral_eq (x : Extern ρ σ) (app : AuthApp σ) (req : request)
    {packet : ServerEphemeral} {session : σ}
    (hp : ServerEphemeral.UnmarshalBinary req.message = .ok packet)
    (hs : app.sessions packet.session = some session) :
    handleEphemeral x app req =
      (match (x.ComputeKey session packet.ephemeral).2 with
        | .error e => .error e
        | .ok _ =>
          match AuthEphemeral.MarshalBinary
              { session := packet.session
                ephemeral := x.GetB (x.ComputeKey session packet.ephemeral).1 } with
          | .error e => .error e
          | .ok message => .ok { address := req.address, message := message },
       { app with
         sessions := app.sessions.insert packet.session
           (x.ComputeKey session packet.ephemeral).1 }) := by
  unfold handleEphemeral
  simp only [hp, hs]
  cases hck : x.ComputeKey session packet.ephemeral with
  | mk s1 r =>
    cases r with
    | error e => rfl
    | ok K =>
      simp only
      split <;> rfl

theorem AuthEphemeral_MarshalBinary_ok (session : Nat) (B : Bytes) (h : B.length < 2 ^ 16) :
    AuthEphemeral.MarshalBinary { session := session, ephemeral := B } =
      .ok (putUint32 CharonAuthEphemeral ++ putUint32 session ++ (putUint16 B.length ++ B)) := by
  simp only [AuthEphemeral.MarshalBinary, putLenPrefixed, if_pos h]

/-- C5: for a well-formed ServerEphemeral packet: if its session ID is not in
the table, `handleEphemeral` returns the error "session does not exist" and no
reply is produced; if the session's `ComputeKey` on `A` fails, it returns that
error and no reply is produced; otherwise (the server public value being
shorter than 2^16 bytes, so that it can be framed) it returns a response
addressed to the request's source address whose message is the encoding of
AuthEphemeral with the packet's session ID and that session's `GetB`, and
`requestHandler` sends it. -/
theorem handleEphemeral_spec (x : Extern ρ σ) (db : Database) (rnd : Rand) (app : AuthApp σ)
    (req : request) (packet : ServerEphemeral)
    (hp : ServerEphemeral.UnmarshalBinary req.message = .ok packet) :
    (app.sessions packet.session = none →
      handleEphemeral x app req = (.error .sessionDoesNotExist, app) ∧
      (requestHandler x db rnd app req).1 = none) ∧
    (∀ session e, app.sessions packet.session = some session →
      (x.ComputeKey session packet.ephemeral).2 = .error e →
      (handleEphemeral x app req).1 = .error e ∧
      (requestHandler x db rnd app req).1 = none) ∧
    (∀ session K, app.sessions packet.session = some session →
      (x.ComputeKey session packet.ephemeral).2 = .ok K →
      (x.GetB (x.ComputeKey session packet.ephemeral).1).length < 2 ^ 16 →
      ∃ message,
        AuthEphemeral.MarshalBinary
          { session := packet.session
            ephemeral := x.GetB (x.ComputeKey session packet.ephemeral).1 } = .ok message ∧
        (handleEphemeral x app req).1 = .ok { address := req.address, message := message } ∧
        (requestHandler x db rnd app req).1 =
          some { address := req.address, message := message }) := by
  have hreq : requestHandler x db rnd app req =
      (match handleEphemeral x app req with
        | (.error _, app1) => (none, app1)
        | (.ok res, app1) => (some res, app1)) := by
    unfold requestHandler
    simp only [router_of_ServerEphemeral hp, routeFunc.call]
  refine ⟨fun hs => ?_, fun session e hs hk => ?_, fun session K hs hk hlen => ?_⟩
  · have h : handleEphemeral x app req = (.error .sessionDoesNotExist, app) := by
      unfold handleEphemeral
      simp only [hp, hs]
    exact ⟨h, by rw [hreq, h]⟩
  · have h := handleEphemeral_eq x app req hp hs
    rw [hk] at h
    exact ⟨by rw [h], by rw [hreq, h]⟩
  · have h := handleEphemeral_eq x app req hp hs
    have hm := AuthEphemeral_MarshalBinary_ok packet.session _ hlen
    rw [hk, hm] at h
    exact ⟨_, hm, by rw [h], by rw [hreq, h]⟩

/-- C7 (amended): the handlers keep no progress state of a session and check
only that its ID is in the table.  For every session in the table, whatever
it has accepted so far: `handleProof` on a well-formed ServerProof naming it
returns no error (the server proof being shorter than 2^16 bytes), and
`handleEphemeral` on a well-formed ServerEphemeral naming it returns an error
exactly when `ComputeKey` fails on the `A` of that packet (the server public
value being shorter than 2^16 bytes). -/
theorem handlers_check_presence_only (x : Extern ρ σ) (app : AuthApp σ) (session : σ) :
    (∀ (req : request) (packet : ServerProof),
      ServerProof.UnmarshalBinary req.message = .ok packet →
      app.sessions packet.session = some session →
      (x.ComputeAuthenticator session packet.proof).length < 2 ^ 16 →
      ∃ res, (handleProof x app req).1 = .ok res) ∧
    (∀ (req : request) (packet : ServerEphemeral),
      ServerEphemeral.UnmarshalBinary req.message = .ok packet →
      app.sessions packet.session = some session →
      (x.GetB (x.ComputeKey session packet.ephemeral).1).length < 2 ^ 16 →
      ((∃ e, (handleEphemeral x app req).1 = .error e) ↔
        ∃ e, (x.ComputeKey session packet.ephemeral).2 = .error e)) := by
  refine ⟨fun req packet hp hs hlen => ?_, fun req packet hp hs hlen => ?_⟩
  · unfold handleProof
    simp only [hp, hs, AuthProof.MarshalBinary, SessionError.MarshalBinary, putLenPrefixed,
      if_pos hlen]
    split <;> exact ⟨_, rfl⟩
  · rw [handleEphemeral_eq x app req hp hs, AuthEphemeral_MarshalBinary_ok _ _ hlen]
    cases hk : (x.ComputeKey session packet.ephemeral).2 with
    | error e => simp
    | ok K => simp

/-! ## Session time-out -/

theorem handleProof_state (x : Extern ρ σ) (app : AuthApp σ) (req : request) :
    (handleProof x app req).2 = app := by
  unfold handleProof
  split
  · rfl
  · split
    · rfl
    · split
      · split <;> rfl
      · simp only
        split <;> rfl

theorem handleEphemeral_absent (x : Extern ρ σ) (app : AuthApp σ) (req : request) (id : Nat)
    (h : app.sessions id = none) : (handleEphemeral x app req).2.sessions id = none := by
  unfold handleEphemeral
  split
  · exact h
  · rename_i packet hp
    split
    · exact h
    · rename_i session hs
      have hne : id ≠ packet.session := by
        intro heq
        rw [heq, hs] at h
        cases h
      split
      · simp [sessions.insert, hne, h]
      · simp only
        split <;> simp [sessions.insert, hne, h]

theorem handleNegotiate_absent (x : Extern ρ σ) (db : Database) (rnd : Rand) (app : AuthApp σ)
    (req : request) (id : Nat) (h : app.sessions id = none)
    (hd : ∀ sessionBytes, rnd.Read = .ok sessionBytes → binaryReadUint32 sessionBytes ≠ .ok id) :
    (handleNegotiate x db rnd app req).2.sessions id = none := by
  unfold handleNegotiate
  split
  · exact h
  · split
    · exact h
    · split
      · exact h
      · rename_i sessionBytes hr
        split
        · exact h
        · rename_i sessionID hid
          have hne : id ≠ sessionID := by
            intro heq
            rw [← heq] at hid
            exact hd sessionBytes hr hid
          split
          · exact h
          · split <;> simp [sessions.insert, hne, h]

theorem requestHandler_absent (x : Extern ρ σ) (db : Database) (rnd : Rand) (app : AuthApp σ)
    (req : request) (id : Nat) (h : app.sessions id = none)
    (hd : (Event.datagram db rnd req).draws id = false) :
    (requestHandler x db rnd app req).2.sessions id = none := by
  have key : ∀ route, router req = .ok route →
      (route.call x db rnd app req).2.sessions id = none := by
    intro route hroute
    cases route with
    | handleNegotiate =>
      apply handleNegotiate_absent x db rnd app req id h
      intro sessionBytes hr hid
      simp [Event.draws, hroute, hr, hid] at hd
    | handleEphemeral => exact handleEphemeral_absent x app req id h
    | handleProof =>
      show (handleProof x app req).2.sessions id = none
      rw [handleProof_state]
      exact h
  unfold requestHandler
  cases hroute : router req with
  | error e => exact h
  | ok route =>
    have hk := key route hroute
    simp only
    cases hc : route.call x db rnd app req with
    | mk r app1 =>
      rw [hc] at hk
      cases r <;> exact hk

theorem run_absent (x : Extern ρ σ) (id : Nat) (evs : List Event) :
    ∀ (app app2 : AuthApp σ), app.sessions id = none →
      (∀ ev ∈ evs, ev.draws id = false) → run x app evs = some app2 →
      app2.sessions id = none := by
  induction evs with
  | nil =>
    intro app app2 h _ hrun
    simp only [run, Option.some.injEq] at hrun
    rw [← hrun]
    exact h
  | cons ev evs ih =>
    intro app app2 h hd hrun
    unfold run at hrun
    cases hstep : step x app ev with
    | none => rw [hstep] at hrun; cases hrun
    | some app1 =>
      rw [hstep] at hrun
      refine ih app1 app2 ?_ (fun e he => hd e (List.mem_cons_of_mem _ he)) hrun
      cases ev with
      | datagram db rnd req =>
        simp only [step, Option.some.injEq] at hstep
        rw [← hstep]
        exact requestHandler_absent x db rnd app req id h (hd _ (List.mem_cons_self _ _))
      | purge other =>
        simp only [step] at hstep
        split at hstep
        · simp only [Option.some.injEq] at hstep
          rw [← hstep]
          simp only [sessions.delete]
          split
          · rfl
          · exact h
        · cases hstep

/-- C9: in the step relation whose events are handled datagrams and wake-ups
of the time-out goroutines, a purge can fire only if it was armed (by a
negotiate, as (session ID, 5 seconds)); once the purge for a session ID has
fired, that ID is absent from the table, and it stays absent through every
later run of events none of which is a negotiate drawing that ID again; a
ServerEphemeral or ServerProof naming it then fails lookup and yields no
reply; and a purge that fires for an ID already absent leaves the table
unchanged. -/
theorem purge_removes_session (x : Extern ρ σ) (app app1 app2 : AuthApp σ) (sessionID : Nat)
    (evs : List Event)
    (hfire : step x app (.purge sessionID) = some app1)
    (hevs : ∀ ev ∈ evs, ev.draws sessionID = false)
    (hrun : run x app1 evs = some app2) :
    (sessionID, 5) ∈ app.purges ∧
    app1.sessions sessionID = none ∧
    app2.sessions sessionID = none ∧
    (∀ db rnd req packet, ServerEphemeral.UnmarshalBinary req.message = .ok packet →
      packet.session = sessionID →
      handleEphemeral x app2 req = (.error .sessionDoesNotExist, app2) ∧
      requestHandler x db rnd app2 req = (none, app2)) ∧
    (∀ db rnd req packet, ServerProof.UnmarshalBinary req.message = .ok packet →
      packet.session = sessionID →
      handleProof x app2 req = (.error .sessionDoesNotExist, app2) ∧
      requestHandler x db rnd app2 req = (none, app2)) ∧
    (app.sessions sessionID = none → app1.sessions = app.sessions) := by
  simp only [step] at hfire
  split at hfire
  · rename_i harmed
    simp only [Option.some.injEq] at hfire
    have h1 : app1.sessions sessionID = none := by
      rw [← hfire]
      simp [sessions.delete]
    have h2 : app2.sessions sessionID = none := run_absent x sessionID evs app1 app2 h1 hevs hrun
    refine ⟨harmed, h1, h2, ?_, ?_, ?_⟩
    · intro db rnd req packet hp hid
      have h : handleEphemeral x app2 req = (.error .sessionDoesNotExist, app2) := by
        unfold handleEphemeral
        simp only [hp, hid, h2]
      refine ⟨h, ?_⟩
      unfold requestHandler
      simp only [router_of_ServerEphemeral hp, routeFunc.call, h]
    · intro db rnd req packet hp hid
      have h : handleProof x app2 req = (.error .sessionDoesNotExist, app2) := by
        unfold handleProof
        simp only [hp, hid, h2]
      refine ⟨h, ?_⟩
      unfold requestHandler
      simp only [router_of_ServerProof hp, routeFunc.call, h]
    · intro habs
      rw [← hfire]
      funext i
      simp only [sessions.delete]
      split
      · rename_i hi
        rw [hi, habs]
      · rfl
  · cases hfire

/-! ## SRP-6a key agreement -/

theorem fromBytes_append_singleton (l : Bytes) (c : Nat) :
    fromBytes (l ++ [c]) = fromBytes l * 256 + c := by
  simp [fromBytes, List.foldl_append]

theorem fromBytes_toBytesAux (fuel : Nat) : ∀ n, n ≤ fuel → fromBytes (toBytesAux fuel n) = n := by
  induction fuel with
  | zero =>
    intro n hn
    have : n = 0 := by omega
    subst this
    rfl
  | succ fuel ih =>
    intro n hn
    unfold toBytesAux
    split
    · rename_i h0
      rw [h0]; rfl
    · rename_i h0
      rw [fromBytes_append_singleton, ih (n / 256) (by omega)]
      omega

theorem fromBytes_toBytes (n : Nat) : fromBytes (toBytes n) = n :=
  fromBytes_toBytesAux n n (Nat.le_refl n)

theorem fromBytes_replicate_append (k : Nat) (l : Bytes) :
    fromBytes (List.replicate k 0 ++ l) = fromBytes l := by
  induction k with
  | zero => rfl
  | succ k ih =>
    have : fromBytes (List.replicate (k + 1) 0 ++ l) = fromBytes (List.replicate k 0 ++ l) := by
      simp [fromBytes, List.replicate_succ]
    rw [this, ih]

theorem fromBytes_PAD (s : SRP) (x : Nat) : fromBytes (s.PAD x) = x := by
  unfold SRP.PAD
  rw [fromBytes_replicate_append, fromBytes_toBytes]

theorem srp_shared_secret (N g x a b u k : Nat) :
    ((((((k * (g ^ x % N) + g ^ b) % N : Nat) : Int) - (k : Int) * ((g ^ x % N : Nat) : Int))
        % (N : Int)).toNat) ^ (a + u * x) % N =
      (g ^ a % N * (g ^ x % N) ^ u) ^ b % N := by
  set v := g ^ x % N with hv
  set t := (((((k * v + g ^ b) % N : Nat) : Int) - (k : Int) * (v : Int)) % (N : Int)).toNat with ht
  have hnn : 0 ≤ ((((k * v + g ^ b) % N : Nat) : Int) - (k : Int) * (v : Int)) % (N : Int) := by
    by_cases hN : N = 0
    · subst hN
      simp only [Nat.mod_zero, Nat.cast_zero, Int.emod_zero]
      push_cast
      have : (0 : Int) ≤ (g : Int) ^ b := by positivity
      linarith
    · exact Int.emod_nonneg _ (by exact_mod_cast hN)
  have htz : (t : Int) ≡ ((g ^ b : Nat) : Int) [ZMOD (N : Int)] := by
    rw [ht, Int.toNat_of_nonneg hnn]
    refine (Int.mod_modEq _ _).trans ?_
    have h1 : (((k * v + g ^ b) % N : Nat) : Int) ≡ ((k * v + g ^ b : Nat) : Int) [ZMOD (N : Int)] :=
      (Int.natCast_modEq_iff).mpr (Nat.mod_modEq _ _)
    have h2 := h1.sub_right ((k : Int) * (v : Int))
    refine h2.trans ?_
    have : ((k * v + g ^ b : Nat) : Int) - (k : Int) * (v : Int) = ((g ^ b : Nat) : Int) := by
      push_cast; ring
    rw [this]
  have htn : t ≡ g ^ b [MOD N] := (Int.natCast_modEq_iff).mp htz
  have hvn : v ≡ g ^ x [MOD N] := Nat.mod_modEq _ _
  have han : g ^ a % N ≡ g ^ a [MOD N] := Nat.mod_modEq _ _
  have h1 : t ^ (a + u * x) ≡ (g ^ b) ^ (a + u * x) [MOD N] := htn.pow _
  have h2 : (g ^ a % N * v ^ u) ^ b ≡ (g ^ a * (g ^ x) ^ u) ^ b [MOD N] :=
    (han.mul (hvn.pow _)).pow _
  have h3 : (g ^ b) ^ (a + u * x) = (g ^ a * (g ^ x) ^ u) ^ b := by
    rw [← pow_mul, ← pow_mul, ← pow_add, ← pow_mul]
    congr 1
    ring
  rw [h3] at h1
  exact h1.trans h2.symm


/-- The two `ComputeKey` calls of the example return a key exactly when the
guards of section 4.D let them: the server's when `A mod N` and `u` are not 0,
the client's when `B mod N` and `u` are not 0. -/
theorem ComputeKey_returns_iff (s : SRP) (username password salt v : Bytes) (a b : Nat) :
    ((∃ K, ((s.NewServerSession username salt v b).ComputeKey s
          ((s.NewClientSession username password a).GetA s)).2 = .ok K) ↔
      ((s.NewClientSession username password a).A % s.N ≠ 0 ∧
        fromBytes (s.H (s.PAD (s.NewClientSession username password a).A ++
          s.PAD (s.NewServerSession username salt v b).B)) ≠ 0)) ∧
    ((∃ K, ((s.NewClientSession username password a).ComputeKey s salt
          ((s.NewServerSession username salt v b).GetB s)).2 = .ok K) ↔
      ((s.NewServerSession username salt v b).B % s.N ≠ 0 ∧
        fromBytes (s.H (s.PAD (s.NewClientSession username password a).A ++
          s.PAD (s.NewServerSession username salt v b).B)) ≠ 0)) := by
  constructor
  · simp only [ServerSession.ComputeKey, ClientSession.GetA, fromBytes_PAD]
    by_cases hA : (s.NewClientSession username password a).A % s.N = 0
    · simp [hA]
    · by_cases hu : fromBytes (s.H (s.PAD (s.NewClientSession username password a).A ++
          s.PAD (s.NewServerSession username salt v b).B)) = 0
      · simp [hA, hu]
      · simp [hA, hu]
  · simp only [ClientSession.ComputeKey, ServerSession.GetB, fromBytes_PAD]
    by_cases hB : (s.NewServerSession username salt v b).B % s.N = 0
    · simp [hB]
    · by_cases hu : fromBytes (s.H (s.PAD (s.NewClientSession username password a).A ++
          s.PAD (s.NewServerSession username salt v b).B)) = 0
      · simp [hB, hu]
      · simp [hB, hu]

/-- C6 (amended): for every username, password and random draws, with
(salt, v) produced by `ComputeVerifier`, a server session built from
(username, salt, v) and a client session for (username, password) that
exchange `A` and `B`: whenever both `ComputeKey` calls return a key, the value
returned by the client's `ComputeKey(salt, B)` equals the value returned by
the server's `ComputeKey(A)`, it is `K = H(PAD(S))` for
`S = (A · v^u)^b mod N`, the server's `VerifyClientAuthenticator` accepts the
client's `ComputeAuthenticator()` output, the client's
`VerifyServerAuthenticator` accepts the server's `ComputeAuthenticator` of
that M1, and `ExampleNewSRP` ends with these values. -/
theorem srp_key_agreement (s : SRP) (username password salt0 salt v : Bytes) (a b : Nat)
    (cs1 : ClientSession) (ss1 : ServerSession) (ckey skey : Bytes)
    (hv : s.ComputeVerifier salt0 username password = (salt, v))
    (hc : (s.NewClientSession username password a).ComputeKey s salt
        ((s.NewServerSession username salt v b).GetB s) = (cs1, .ok ckey))
    (hs : (s.NewServerSession username salt v b).ComputeKey s
        ((s.NewClientSession username password a).GetA s) = (ss1, .ok skey)) :
    ckey = skey ∧
    skey = s.H (s.PAD (((s.NewClientSession username password a).A *
      fromBytes v ^ fromBytes (s.H (s.PAD (s.NewClientSession username password a).A ++
        s.PAD (s.NewServerSession username salt v b).B))) ^ b % s.N)) ∧
    ss1.VerifyClientAuthenticator s (cs1.ComputeAuthenticator s) = true ∧
    cs1.VerifyServerAuthenticator s (ss1.ComputeAuthenticator s (cs1.ComputeAuthenticator s)) =
      true ∧
    ExampleNewSRP s username password salt0 a b = .ok (ckey, skey, true, true) := by
  simp only [SRP.ComputeVerifier, Prod.mk.injEq] at hv
  obtain ⟨hsalt, hver⟩ := hv
  subst hsalt hver
  have hS := srp_shared_secret s.N s.g (s.x salt0 username password) a b
    (fromBytes (s.H (s.PAD (s.g ^ a % s.N) ++
      s.PAD ((s.k * (s.g ^ s.x salt0 username password % s.N) + s.g ^ b) % s.N)))) s.k
  have hex : ExampleNewSRP s username password salt0 a b =
      .ok (ckey, skey, ss1.VerifyClientAuthenticator s (cs1.ComputeAuthenticator s),
        cs1.VerifyServerAuthenticator s
          (ss1.ComputeAuthenticator s (cs1.ComputeAuthenticator s))) := by
    have hs1 : (s.NewServerSession username salt0
        (s.PAD (s.g ^ s.x salt0 username password % s.N)) b).ComputeKey s (cs1.GetA s) =
        (ss1, .ok skey) := by
      have hA : cs1.GetA s = (s.NewClientSession username password a).GetA s := by
        simp only [ClientSession.ComputeKey] at hc
        split at hc
        · simp only [Prod.mk.injEq] at hc
          exact absurd hc.2 (by simp)
        · split at hc
          · simp only [Prod.mk.injEq] at hc
            exact absurd hc.2 (by simp)
          · simp only [Prod.mk.injEq] at hc
            rw [← hc.1]
            rfl
      rw [hA]
      exact hs
    simp only [ExampleNewSRP, SRP.ComputeVerifier, hc, hs1]
  simp only [ClientSession.ComputeKey, ServerSession.GetB, fromBytes_PAD] at hc
  simp only [ServerSession.ComputeKey, ClientSession.GetA, fromBytes_PAD] at hs
  split at hc
  · simp only [Prod.mk.injEq] at hc
    exact absurd hc.2 (by simp)
  · split at hc
    · simp only [Prod.mk.injEq] at hc
      exact absurd hc.2 (by simp)
    · split at hs
      · simp only [Prod.mk.injEq] at hs
        exact absurd hs.2 (by simp)
      · simp only [Prod.mk.injEq, Except.ok.injEq] at hc hs
        obtain ⟨hcs, hck⟩ := hc
        obtain ⟨hss, hsk⟩ := hs
        simp only [SRP.NewClientSession, SRP.NewServerSession, fromBytes_PAD, hS]
          at hcs hck hss hsk
        have hkeys : ckey = skey := by rw [← hck, ← hsk]
        have hvc : ss1.VerifyClientAuthenticator s (cs1.ComputeAuthenticator s) = true := by
          rw [← hss, ← hcs]
          simp [ServerSession.VerifyClientAuthenticator, ClientSession.ComputeAuthenticator]
        have hvs : cs1.VerifyServerAuthenticator s
            (ss1.ComputeAuthenticator s (cs1.ComputeAuthenticator s)) = true := by
          rw [← hss, ← hcs]
          simp [ClientSession.VerifyServerAuthenticator, ServerSession.ComputeAuthenticator,
            ClientSession.ComputeAuthenticator]
        refine ⟨hkeys, ?_, hvc, hvs, ?_⟩
        · rw [← hsk]
          simp only [SRP.NewClientSession, SRP.NewServerSession, fromBytes_PAD]
        · rw [hex, hvc, hvs]

/-! ## Further properties of the handlers -/

theorem step_keeps_armed (x : Extern ρ σ) (app app1 : AuthApp σ) (ev : Event)
    (hinv : ∀ id, app.sessions id ≠ none → (id, 5) ∈ app.purges)
    (hstep : step x app ev = some app1) :
    ∀ id, app1.sessions id ≠ none → (id, 5) ∈ app1.purges := by
  cases ev with
  | purge other =>
    simp only [step] at hstep
    split at hstep
    · simp only [Option.some.injEq] at hstep
      rw [← hstep]
      intro id hid
      simp only [sessions.delete] at hid
      split at hid
      · exact absurd rfl hid
      · rename_i hne
        simp only
        rw [List.mem_erase_of_ne (by simpa using hne)]
        exact hinv id hid
    · cases hstep
  | datagram db rnd req =>
    simp only [step, Option.some.injEq] at hstep
    rw [← hstep]
    unfold requestHandler
    cases hroute : router req with
    | error e => exact hinv
    | ok route =>
      have key : ∀ id, (route.call x db rnd app req).2.sessions id ≠ none →
          (id, 5) ∈ (route.call x db rnd app req).2.purges := by
        cases route with
        | handleProof =>
          show ∀ id, (handleProof x app req).2.sessions id ≠ none →
            (id, 5) ∈ (handleProof x app req).2.purges
          rw [handleProof_state]
          exact hinv
        | handleEphemeral =>
          show ∀ id, (handleEphemeral x app req).2.sessions id ≠ none →
            (id, 5) ∈ (handleEphemeral x app req).2.purges
          unfold handleEphemeral
          split
          · exact hinv
          · rename_i packet hp
            split
            · exact hinv
            · rename_i session hs
              have hk : (packet.session, 5) ∈ app.purges := hinv _ (by rw [hs]; simp)
              have hgen : ∀ (s1 : σ) (id : Nat),
                  sessions.insert app.sessions packet.session s1 id ≠ none →
                  (id, 5) ∈ app.purges := by
                intro s1 id hid
                simp only [sessions.insert] at hid
                split at hid
                · rename_i heq
                  rw [heq]; exact hk
                · exact hinv id hid
              split
              · exact hgen _
              · simp only
                split <;> exact hgen _
        | handleNegotiate =>
          show ∀ id, (handleNegotiate x db rnd app req).2.sessions id ≠ none →
            (id, 5) ∈ (handleNegotiate x db rnd app req).2.purges
          unfold handleNegotiate
          split
          · exact hinv
          · split
            · exact hinv
            · split
              · exact hinv
              · split
                · exact hinv
                · rename_i sessionID hid
                  split
                  · exact hinv
                  · rename_i srpo hsrp
                    have hgen : ∀ (s1 : σ) (id : Nat),
                        sessions.insert app.sessions sessionID s1 id ≠ none →
                        (id, 5) ∈ app.purges ++ [(sessionID, 5)] := by
                      intro s1 id h
                      simp only [sessions.insert] at h
                      split at h
                      · rename_i heq
                        rw [heq]; simp
                      · exact List.mem_append_left _ (hinv id h)
                    simp only
                    split <;> exact hgen _
      simp only
      cases hc : route.call x db rnd app req with
      | mk r app2 =>
        rw [hc] at key
        cases r <;> exact key

theorem run_keeps_armed (x : Extern ρ σ) (evs : List Event) :
    ∀ (app app1 : AuthApp σ), (∀ id, app.sessions id ≠ none → (id, 5) ∈ app.purges) →
      run x app evs = some app1 → ∀ id, app1.sessions id ≠ none → (id, 5) ∈ app1.purges := by
  induction evs with
  | nil =>
    intro app app1 hinv hrun
    simp only [run, Option.some.injEq] at hrun
    rw [← hrun]
    exact hinv
  | cons ev evs ih =>
    intro app app1 hinv hrun
    unfold run at hrun
    cases hstep : step x app ev with
    | none => rw [hstep] at hrun; cases hrun
    | some app2 =>
      rw [hstep] at hrun
      exact ih app2 app1 (step_keeps_armed x app app2 ev hinv hstep) hrun

/-- Every session has its time-out pending: in every state a new application
reaches by handling datagrams and firing armed purges, each session ID that is
a key of the table has a 5-second purge armed and not yet fired. -/
theorem sessions_have_purge_armed (x : Extern ρ σ) (evs : List Event) (app : AuthApp σ)
    (hrun : run x NewAuthApp evs = some app) (id : Nat) (hid : app.sessions id ≠ none) :
    (id, 5) ∈ app.purges :=
  run_keeps_armed x evs NewAuthApp app (fun _ h => absurd rfl h) hrun id hid

/-- A reply always goes back to where the request came from: whichever
handler `router` selects, a response it returns is addressed to the request's
source address. -/
theorem reply_goes_to_source (x : Extern ρ σ) (db : Database) (rnd : Rand) (app : AuthApp σ)
    (req : request) (res : response)
    (h : (requestHandler x db rnd app req).1 = some res) : res.address = req.address := by
  unfold requestHandler at h
  cases hroute : router req with
  | error e => rw [hroute] at h; cases h
  | ok route =>
    rw [hroute] at h
    simp only at h
    have key : ∀ r, (route.call x db rnd app req).1 = .ok r → r.address = req.address := by
      have hok : ∀ (m : Except Err Bytes) (st : AuthApp σ) (r : response),
          (match m with
            | .error e => ((.error e : Except Err response), st)
            | .ok message => (.ok { address := req.address, message := message }, st)).1 = .ok r →
          r.address = req.address := by
        intro m st r hr
        cases m with
        | error e => cases hr
        | ok message => cases hr; rfl
      have herr : ∀ (e : Err) (st : AuthApp σ) (r : response),
          ((.error e : Except Err response), st).1 = .ok r → r.address = req.address := by
        intro e st r hr
        cases hr
      cases route with
      | handleNegotiate =>
        show ∀ r, (handleNegotiate x db rnd app req).1 = .ok r → r.address = req.address
        unfold handleNegotiate
        split
        · exact herr _ _
        · split
          · exact herr _ _
          · split
            · exact herr _ _
            · split
              · exact herr _ _
              · split
                · exact herr _ _
                · exact hok _ _
      | handleEphemeral =>
        show ∀ r, (handleEphemeral x app req).1 = .ok r → r.address = req.address
        unfold handleEphemeral
        split
        · exact herr _ _
        · split
          · exact herr _ _
          · split
            · exact herr _ _
            · exact hok _ _
      | handleProof =>
        show ∀ r, (handleProof x app req).1 = .ok r → r.address = req.address
        unfold handleProof
        split
        · exact herr _ _
        · split
          · exact herr _ _
          · split
            · exact hok (SessionError.MarshalBinary _) app
            · exact hok (AuthProof.MarshalBinary _) app
    cases hc : route.call x db rnd app req with
    | mk r app1 =>
      rw [hc] at h key
      cases r with
      | error e => cases h
      | ok res1 =>
        simp only [Option.some.injEq] at h
        rw [← h]
        exact key res1 rfl

/-- `handleProof` is read-only: whatever the datagram and whatever it answers,
it leaves the session table and the armed purges as they were. -/
theorem handleProof_is_read_only (x : Extern ρ σ) (db : Database) (rnd : Rand)
    (app : AuthApp σ) (req : request) :
    (handleProof x app req).2 = app ∧
    (router req = .ok .handleProof → (requestHandler x db rnd app req).2 = app) := by
  have h : (handleProof x app req).2 = app := by
    unfold handleProof
    split
    · rfl
    · split
      · rfl
      · split
        · split <;> rfl
        · simp only
          split <;> rfl
  refine ⟨h, fun hroute => ?_⟩
  unfold requestHandler
  rw [hroute]
  simp only [routeFunc.call]
  cases hc : handleProof x app req with
  | mk r app1 =>
    rw [hc] at h
    cases r <;> exact h

/-- `handleEphemeral` creates and removes no session and arms no purge: after
it the table has exactly the keys it had before, every session other than the
one the packet names is the one it was, and the armed purges are unchanged. -/
theorem handleEphemeral_keeps_keys (x : Extern ρ σ) (app : AuthApp σ) (req : request) :
    (∀ id, ((handleEphemeral x app req).2.sessions id).isSome = (app.sessions id).isSome) ∧
    (∀ packet, ServerEphemeral.UnmarshalBinary req.message = .ok packet →
      ∀ id, id ≠ packet.session → (handleEphemeral x app req).2.sessions id = app.sessions id) ∧
    (handleEphemeral x app req).2.purges = app.purges := by
  unfold handleEphemeral
  split
  · exact ⟨fun _ => rfl, fun _ _ _ _ => rfl, rfl⟩
  · rename_i packet hp
    split
    · exact ⟨fun _ => rfl, fun _ _ _ _ => rfl, rfl⟩
    · rename_i session hs
      have hgen : ∀ (s1 : σ),
          (∀ id, (sessions.insert app.sessions packet.session s1 id).isSome =
            (app.sessions id).isSome) ∧
          (∀ packet1, ServerEphemeral.UnmarshalBinary req.message = .ok packet1 →
            ∀ id, id ≠ packet1.session →
              sessions.insert app.sessions packet.session s1 id = app.sessions id) := by
        intro s1
        refine ⟨fun id => ?_, fun packet1 hp1 id hne => ?_⟩
        · simp only [sessions.insert]
          split
          · rename_i heq
            rw [heq, hs]; rfl
          · rfl
        · rw [hp] at hp1
          simp only [Except.ok.injEq] at hp1
          rw [← hp1] at hne
          simp [sessions.insert, hne]
      split
      · exact ⟨(hgen _).1, (hgen _).2, rfl⟩
      · simp only
        split <;> exact ⟨(hgen _).1, (hgen _).2, rfl⟩

/-! ## The theorems at concrete inputs -/

/-- The theorem `handleNegotiate_unknown_user` applied to a concrete input, its hypotheses evaluated. -/
theorem handleNegotiate_unknown_user_witness :
    ServerNegotiate.UnmarshalBinary
        (toyNegotiateReq [78, 111, 83, 117, 99, 104, 85, 115, 101, 114]).message =
      .ok { clientSession := 0xDEADBEEF
            username := [78, 111, 83, 117, 99, 104, 85, 115, 101, 114] } ∧
    toyDatabase.FindUser [78, 111, 83, 117, 99, 104, 85, 115, 101, 114] = .error .userNotFound ∧
    handleNegotiate toyExtern toyDatabase toyRand (toyApp toyFresh)
        (toyNegotiateReq [78, 111, 83, 117, 99, 104, 85, 115, 101, 114]) =
      (.error .userNotFound, toyApp toyFresh) ∧
    requestHandler toyExtern toyDatabase toyRand (toyApp toyFresh)
        (toyNegotiateReq [78, 111, 83, 117, 99, 104, 85, 115, 101, 114]) =
      (none, toyApp toyFresh) :=
  ⟨by decide, by decide,
    handleNegotiate_unknown_user toyExtern toyDatabase toyRand (toyApp toyFresh)
      (toyNegotiateReq [78, 111, 83, 117, 99, 104, 85, 115, 101, 114])
      { clientSession := 0xDEADBEEF, username := [78, 111, 83, 117, 99, 104, 85, 115, 101, 114] }
      .userNotFound (by decide) (by decide)⟩

/-- The theorem `handleNegotiate_reply` applied to a concrete input, its hypotheses evaluated. -/
theorem handleNegotiate_reply_witness :
    ServerNegotiate.UnmarshalBinary (toyNegotiateReq [65, 66]).message =
      .ok { clientSession := 0xDEADBEEF, username := [65, 66] } ∧
    toyDatabase.FindUser [65, 66] = .ok toyUser ∧
    toyUser.Username = [97, 98] ∧
    (handleNegotiate toyExtern toyDatabase toyRand8 (toyApp toyFresh) (toyNegotiateReq [65, 66])).1 =
      .ok { address := toyAddr
            message := [1, 202, 3, 224, 239, 190, 173, 222, 8, 0, 0, 0, 2, 97, 98, 0,
                        4, 0, 1, 2, 3, 4] } ∧
    (handleNegotiate toyExtern toyDatabase toyRand8 (toyApp toyFresh)
        (toyNegotiateReq [65, 66])).2.sessions 8 =
      some (toyExtern.NewServerSession toySRP toyUser.Username toyUser.Salt toyUser.Verifier 5) ∧
    (handleNegotiate toyExtern toyDatabase toyRand8 (toyApp toyFresh)
        (toyNegotiateReq [65, 66])).2.purges = (toyApp toyFresh).purges ++ [(8, 5)] ∧
    (requestHandler toyExtern toyDatabase toyRand8 (toyApp toyFresh) (toyNegotiateReq [65, 66])).1 =
      some { address := toyAddr
             message := [1, 202, 3, 224, 239, 190, 173, 222, 8, 0, 0, 0, 2, 97, 98, 0,
                         4, 0, 1, 2, 3, 4] } :=
  ⟨by decide, by decide, by decide,
    handleNegotiate_reply toyExtern toyDatabase toyRand8 (toyApp toyFresh)
      (toyNegotiateReq [65, 66]) { clientSession := 0xDEADBEEF, username := [65, 66] } toyUser
      [8, 0, 0, 0] 8 toySRP
      [1, 202, 3, 224, 239, 190, 173, 222, 8, 0, 0, 0, 2, 97, 98, 0, 4, 0, 1, 2, 3, 4]
      (by decide) (by decide) (by decide) (by decide) rfl (by decide)⟩

/-- C8, as stated, fails: the table holds the session of user `ab` under ID 7;
a negotiate for user `cd` draws the ID 7; afterwards the table maps 7 to the
new session of `cd` and no longer to the session it held. -/
theorem handleNegotiate_collision_counterexample :
    ServerNegotiate.UnmarshalBinary (toyNegotiateReq [99, 100]).message =
      .ok { clientSession := 0xDEADBEEF, username := [99, 100] } ∧
    toyRand.Read = .ok [7, 0, 0, 0] ∧
    binaryReadUint32 [7, 0, 0, 0] = .ok 7 ∧
    (toyApp toyFresh).sessions 7 = some toyFresh ∧
    (handleNegotiate toyExtern toyDatabase toyRand (toyApp toyFresh)
        (toyNegotiateReq [99, 100])).2.sessions 7 ≠ (toyApp toyFresh).sessions 7 ∧
    (handleNegotiate toyExtern toyDatabase toyRand (toyApp toyFresh)
        (toyNegotiateReq [99, 100])).2.sessions 7 =
      some (toySRP.NewServerSession toyUser2.Username toyUser2.Salt toyUser2.Verifier 5) := by
  decide

/-- The theorem `handleNegotiate_collision_overwrites` applied to a concrete input, its hypotheses evaluated. -/
theorem handleNegotiate_collision_overwrites_witness :
    (toyApp toyFresh).sessions 7 = some toyFresh ∧
    (handleNegotiate toyExtern toyDatabase toyRand (toyApp toyFresh)
        (toyNegotiateReq [99, 100])).2.sessions 7 =
      some (toyExtern.NewServerSession toySRP toyUser2.Username toyUser2.Salt
        toyUser2.Verifier 5) ∧
    ∀ other, other ≠ 7 →
      (handleNegotiate toyExtern toyDatabase toyRand (toyApp toyFresh)
        (toyNegotiateReq [99, 100])).2.sessions other = (toyApp toyFresh).sessions other :=
  ⟨by decide,
    handleNegotiate_collision_overwrites toyExtern toyDatabase toyRand (toyApp toyFresh)
      (toyNegotiateReq [99, 100]) { clientSession := 0xDEADBEEF, username := [99, 100] } toyUser2
      [7, 0, 0, 0] 7 toySRP toyFresh
      (by decide) (by decide) (by decide) (by decide) rfl (by decide)⟩

/-- C1, as stated, fails: the table holds a session under ID 7 that has
accepted the client's `A`; a ServerProof naming 7 with the wrong M1 `01` is
rejected and answered with SessionError, and afterwards 7 is still a key of
the table. -/
theorem handleProof_rejected_counterexample :
    ServerProof.UnmarshalBinary (toyProofReq 7 [1]).message = .ok { session := 7, proof := [1] } ∧
    (toyApp toyKeyed).sessions 7 = some toyKeyed ∧
    toyExtern.VerifyClientAuthenticator toyKeyed [1] = false ∧
    (handleProof toyExtern (toyApp toyKeyed) (toyProofReq 7 [1])).1 =
      .ok { address := toyAddr, message := [1, 202, 238, 238, 7, 0, 0, 0, 3] } ∧
    (handleProof toyExtern (toyApp toyKeyed) (toyProofReq 7 [1])).2.sessions 7 ≠ none := by
  decide

/-- The theorem `handleProof_rejected` applied to a concrete input, its hypotheses evaluated. -/
theorem handleProof_rejected_witness :
    ServerProof.UnmarshalBinary (toyProofReq 7 [1]).message = .ok { session := 7, proof := [1] } ∧
    ∃ message,
      SessionError.MarshalBinary { session := 7, errType := toyExtern.SessionErrorAuthFailed } =
        .ok message ∧
      handleProof toyExtern (toyApp toyKeyed) (toyProofReq 7 [1]) =
        (.ok { address := toyAddr, message := message }, toyApp toyKeyed) ∧
      requestHandler toyExtern toyDatabase toyRand (toyApp toyKeyed) (toyProofReq 7 [1]) =
        (some { address := toyAddr, message := message }, toyApp toyKeyed) ∧
      (handleProof toyExtern (toyApp toyKeyed) (toyProofReq 7 [1])).2.sessions 7 = some toyKeyed :=
  ⟨by decide,
    handleProof_rejected toyExtern toyDatabase toyRand (toyApp toyKeyed) (toyProofReq 7 [1])
      { session := 7, proof := [1] } toyKeyed (by decide) (by decide) (by decide)⟩

/-- C2, as stated, fails: the table holds a session under ID 7 that has
accepted the client's `A`; a ServerProof naming 7 with the right M1 `b0` is
accepted and answered with AuthProof, and afterwards 7 is still a key of the
table. -/
theorem handleProof_accepted_counterexample :
    ServerProof.UnmarshalBinary (toyProofReq 7 [176]).message =
      .ok { session := 7, proof := [176] } ∧
    (toyApp toyKeyed).sessions 7 = some toyKeyed ∧
    toyExtern.VerifyClientAuthenticator toyKeyed [176] = true ∧
    (handleProof toyExtern (toyApp toyKeyed) (toyProofReq 7 [176])).1 =
      .ok { address := toyAddr, message := [3, 202, 3, 224, 7, 0, 0, 0, 1, 0, 16] } ∧
    (handleProof toyExtern (toyApp toyKeyed) (toyProofReq 7 [176])).2.sessions 7 ≠ none := by
  decide

/-- The theorem `handleProof_accepted` applied to a concrete input, its hypotheses evaluated. -/
theorem handleProof_accepted_witness :
    ServerProof.UnmarshalBinary (toyProofReq 7 [176]).message =
      .ok { session := 7, proof := [176] } ∧
    ∃ message,
      AuthProof.MarshalBinary
        { session := 7, proof := toyExtern.ComputeAuthenticator toyKeyed [176] } = .ok message ∧
      handleProof toyExtern (toyApp toyKeyed) (toyProofReq 7 [176]) =
        (.ok { address := toyAddr, message := message }, toyApp toyKeyed) ∧
      requestHandler toyExtern toyDatabase toyRand (toyApp toyKeyed) (toyProofReq 7 [176]) =
        (some { address := toyAddr, message := message }, toyApp toyKeyed) ∧
      (handleProof toyExtern (toyApp toyKeyed) (toyProofReq 7 [176])).2.sessions 7 =
        some toyKeyed :=
  ⟨by decide,
    handleProof_accepted toyExtern toyDatabase toyRand (toyApp toyKeyed) (toyProofReq 7 [176])
      { session := 7, proof := [176] } toyKeyed (by decide) (by decide) (by decide) (by decide)⟩

/-- The theorem `handleEphemeral_spec` applied to a concrete input, its hypotheses evaluated. -/
theorem handleEphemeral_spec_witness :
    ServerEphemeral.UnmarshalBinary (toyEphemeralReq 7 [0, 73]).message =
      .ok { session := 7, ephemeral := [0, 73] } ∧
    (toyExtern.ComputeKey toyFresh [0, 73]).2 = .ok [238] ∧
    toyExtern.GetB (toyExtern.ComputeKey toyFresh [0, 73]).1 = [6, 85] ∧
    ∃ message,
      AuthEphemeral.MarshalBinary
        { session := 7
          ephemeral := toyExtern.GetB (toyExtern.ComputeKey toyFresh [0, 73]).1 } = .ok message ∧
      (handleEphemeral toyExtern (toyApp toyFresh) (toyEphemeralReq 7 [0, 73])).1 =
        .ok { address := toyAddr, message := message } ∧
      (requestHandler toyExtern toyDatabase toyRand (toyApp toyFresh)
          (toyEphemeralReq 7 [0, 73])).1 =
        some { address := toyAddr, message := message } :=
  ⟨by decide, by decide, by decide,
    (handleEphemeral_spec toyExtern toyDatabase toyRand (toyApp toyFresh)
      (toyEphemeralReq 7 [0, 73]) { session := 7, ephemeral := [0, 73] } (by decide)).2.2
      toyFresh [238] (by decide) (by decide) (by decide)⟩

/-- C7, as stated, fails in both halves: a session that has not yet accepted a
client ephemeral is in the table under ID 7, and `handleProof` on a
ServerProof naming it returns no error (it answers SessionError); a session
that has already accepted the client ephemeral 73 is in the table under ID 7,
and `handleEphemeral` on a further ServerEphemeral naming it, with `A = 9`,
returns no error (it answers AuthEphemeral). -/
theorem handlers_wrong_state_counterexample :
    ((toyApp toyFresh).sessions 7 = some toyFresh ∧ toyFresh.A = none ∧
      ServerProof.UnmarshalBinary (toyProofReq 7 [1]).message =
        .ok { session := 7, proof := [1] } ∧
      (handleProof toyExtern (toyApp toyFresh) (toyProofReq 7 [1])).1 =
        .ok { address := toyAddr, message := [1, 202, 238, 238, 7, 0, 0, 0, 3] }) ∧
    ((toyApp toyKeyed).sessions 7 = some toyKeyed ∧ toyKeyed.A = some 73 ∧
      ServerEphemeral.UnmarshalBinary (toyEphemeralReq 7 [0, 9]).message =
        .ok { session := 7, ephemeral := [0, 9] } ∧
      (handleEphemeral toyExtern (toyApp toyKeyed) (toyEphemeralReq 7 [0, 9])).1 =
        .ok { address := toyAddr, message := [2, 202, 3, 224, 7, 0, 0, 0, 2, 0, 6, 85] }) := by
  decide

/-- The theorem `purge_removes_session` applied to a concrete input, its hypotheses evaluated. -/
theorem purge_removes_session_witness :
    step toyExtern (toyApp toyFresh) (.purge 7) = some toyPurged ∧
    (toyApp toyFresh).sessions 7 = some toyFresh ∧
    run toyExtern toyPurged [.datagram toyDatabase toyRand8 (toyNegotiateReq [97, 98])] =
      some toyAfter ∧
    toyAfter.sessions 8 ≠ none ∧
    toyPurged.sessions 7 = none ∧
    toyAfter.sessions 7 = none ∧
    requestHandler toyExtern toyDatabase toyRand toyAfter (toyEphemeralReq 7 [0, 73]) =
      (none, toyAfter) :=
  have h := purge_removes_session toyExtern (toyApp toyFresh) toyPurged toyAfter 7
    [.datagram toyDatabase toyRand8 (toyNegotiateReq [97, 98])] rfl (by decide) rfl
  ⟨rfl, by decide, rfl, by decide, h.2.1, h.2.2.1,
    (h.2.2.2.1 toyDatabase toyRand (toyEphemeralReq 7 [0, 73])
      { session := 7, ephemeral := [0, 73] } (by decide) rfl).2⟩

set_option exponentiation.threshold 100000

/-- The theorem `srp_key_agreement` applied to a concrete input, its hypotheses evaluated. -/
theorem srp_key_agreement_witness :
    toySRP.ComputeVerifier [1, 2, 3, 4] [97, 98] [112, 119] = ([1, 2, 3, 4], [2, 173]) ∧
    (toySRP.NewClientSession [97, 98] [112, 119] 13).ComputeKey toySRP [1, 2, 3, 4]
        ((toySRP.NewServerSession [97, 98] [1, 2, 3, 4] [2, 173] 11).GetB toySRP) =
      (toyClientKeyed, .ok [238]) ∧
    (toySRP.NewServerSession [97, 98] [1, 2, 3, 4] [2, 173] 11).ComputeKey toySRP
        ((toySRP.NewClientSession [97, 98] [112, 119] 13).GetA toySRP) =
      (toyKeyed, .ok [238]) ∧
    toyKeyed.VerifyClientAuthenticator toySRP (toyClientKeyed.ComputeAuthenticator toySRP) =
      true ∧
    toyClientKeyed.VerifyServerAuthenticator toySRP
      (toyKeyed.ComputeAuthenticator toySRP (toyClientKeyed.ComputeAuthenticator toySRP)) = true ∧
    ExampleNewSRP toySRP [97, 98] [112, 119] [1, 2, 3, 4] 13 11 =
      .ok ([238], [238], true, true) :=
  have h := srp_key_agreement toySRP [97, 98] [112, 119] [1, 2, 3, 4] [1, 2, 3, 4] [2, 173] 13 11
    toyClientKeyed toyKeyed [238] [238] (by decide) (by decide) (by decide)
  ⟨by decide, by decide, by decide, h.2.2.1, h.2.2.2.1, h.2.2.2.2⟩

/-- C6, as stated, fails on draws the guards of section 4.D reject, on the
small group with the one-byte hash, for the user `ab` with password `pw` and
salt `01 02 03 04`.  With `a = 10`, `b = 2` the scrambling parameter `u` is 0:
the server's `ComputeKey(A)` fails with `BadScramble`, no key is derived, and
`VerifyClientAuthenticator` rejects the client's `ComputeAuthenticator()`
output.  With `a = 13`, `b = 763` the server public value `B` is 0: the
server's `ComputeKey(A)` returns a key and the client's `ComputeKey(salt, B)`
returns none. -/
theorem srp_key_agreement_counterexample :
    toySRP.ComputeVerifier [1, 2, 3, 4] [97, 98] [112, 119] = ([1, 2, 3, 4], [2, 173]) ∧
    (fromBytes (toySRP.H (toySRP.PAD (toySRP.NewClientSession [97, 98] [112, 119] 10).A ++
        toySRP.PAD (toySRP.NewServerSession [97, 98] [1, 2, 3, 4] [2, 173] 2).B)) = 0 ∧
      ((toySRP.NewServerSession [97, 98] [1, 2, 3, 4] [2, 173] 2).ComputeKey toySRP
        ((toySRP.NewClientSession [97, 98] [112, 119] 10).GetA toySRP)).2 =
          .error .badScramble ∧
      ((toySRP.NewServerSession [97, 98] [1, 2, 3, 4] [2, 173] 2).ComputeKey toySRP
          ((toySRP.NewClientSession [97, 98] [112, 119] 10).GetA toySRP)).1.VerifyClientAuthenticator
        toySRP
        (((toySRP.NewClientSession [97, 98] [112, 119] 10).ComputeKey toySRP [1, 2, 3, 4]
          ((toySRP.NewServerSession [97, 98] [1, 2, 3, 4] [2, 173] 2).GetB
            toySRP)).1.ComputeAuthenticator toySRP) = false ∧
      ExampleNewSRP toySRP [97, 98] [112, 119] [1, 2, 3, 4] 10 2 = .error .badScramble) ∧
    ((toySRP.NewServerSession [97, 98] [1, 2, 3, 4] [2, 173] 763).B = 0 ∧
      ((toySRP.NewServerSession [97, 98] [1, 2, 3, 4] [2, 173] 763).ComputeKey toySRP
        ((toySRP.NewClientSession [97, 98] [112, 119] 13).GetA toySRP)).2 = .ok [25] ∧
      ((toySRP.NewClientSession [97, 98] [112, 119] 13).ComputeKey toySRP [1, 2, 3, 4]
        ((toySRP.NewServerSession [97, 98] [1, 2, 3, 4] [2, 173] 763).GetB toySRP)).2 =
          .error .badServerPublic ∧
      ExampleNewSRP toySRP [97, 98] [112, 119] [1, 2, 3, 4] 13 763 =
        .error .badServerPublic) := by
  decide

/-- The theorem `sessions_have_purge_armed` applied to a concrete input, its hypotheses evaluated. -/
theorem sessions_have_purge_armed_witness :
    run toyExtern NewAuthApp [.datagram toyDatabase toyRand8 (toyNegotiateReq [97, 98])] =
      some (requestHandler toyExtern toyDatabase toyRand8 NewAuthApp (toyNegotiateReq [97, 98])).2 ∧
    (requestHandler toyExtern toyDatabase toyRand8 NewAuthApp
      (toyNegotiateReq [97, 98])).2.sessions 8 ≠ none ∧
    (8, 5) ∈ (requestHandler toyExtern toyDatabase toyRand8 NewAuthApp
      (toyNegotiateReq [97, 98])).2.purges :=
  ⟨rfl, by decide,
    sessions_have_purge_armed toyExtern [.datagram toyDatabase toyRand8 (toyNegotiateReq [97, 98])]
      (requestHandler toyExtern toyDatabase toyRand8 NewAuthApp (toyNegotiateReq [97, 98])).2
      rfl 8 (by decide)⟩

/-- The theorem `reply_goes_to_source` applied to a concrete input, its hypotheses evaluated. -/
theorem reply_goes_to_source_witness :
    (requestHandler toyExtern toyDatabase toyRand (toyApp toyFresh)
        (toyEphemeralReq 7 [0, 73])).1 =
      some { address := toyAddr, message := [2, 202, 3, 224, 7, 0, 0, 0, 2, 0, 6, 85] } ∧
    (response.mk toyAddr [2, 202, 3, 224, 7, 0, 0, 0, 2, 0, 6, 85]).address =
      (toyEphemeralReq 7 [0, 73]).address :=
  ⟨by decide,
    reply_goes_to_source toyExtern toyDatabase toyRand (toyApp toyFresh)
      (toyEphemeralReq 7 [0, 73])
      { address := toyAddr, message := [2, 202, 3, 224, 7, 0, 0, 0, 2, 0, 6, 85] } (by decide)⟩

end Charon
